import Mathlib

/-!
Verification of the height-above-ground fusion core of FlightDataAnalyzer
(src/analysis_engine/derived_parameters.py) against its natural-language
specification.

The embedding models numpy masked arrays as `List (Option ℚ)`: `none` is a
masked sample, `some v` an unmasked sample of value `v`.  Machine floats are
modelled as exact rationals.  Functions are translated from
`AltitudeAAL.compute_aal`, `AltitudeAAL.derive`, `link_baro_rad_fwd`,
`link_baro_rad_rev` and `VerticalSpeedInertial.derive`; helpers of
`analysis_engine.library` that are not part of the provided sources are
modelled from the specification and are marked as such in their doc comments.
-/

/-- A numpy masked array of floats: `none` is a masked entry. -/
abbrev MArr := List (Option ℚ)

/-- Element read, `none` out of bounds (masked-array reads never throw in the
modelled code paths; all in-range uses are guarded by the callers). -/
def getM : MArr → ℕ → Option ℚ
  | [], _ => none
  | x :: _, 0 => x
  | _ :: xs, n + 1 => getM xs n

/-- Builds an array of length `n` from an index-to-sample function; used to
model numpy slice assignments functionally. -/
def build : ℕ → (ℕ → Option ℚ) → MArr
  | 0, _ => []
  | n + 1, f => f 0 :: build n (fun i => f (i + 1))

/-- `np.ma.count`: number of unmasked samples. -/
def countValid : MArr → ℕ
  | [] => 0
  | none :: xs => countValid xs
  | some _ :: xs => countValid xs + 1

/-- `np.ma.min`: minimum over the unmasked samples, `none` if all masked. -/
def maMin : MArr → Option ℚ
  | [] => none
  | none :: xs => maMin xs
  | some v :: xs =>
    match maMin xs with
    | none => some v
    | some w => some (min v w)

/-- `np.ma.maximum(xs, 0.0)`: clamp every unmasked sample to be non-negative
(derived_parameters.py line 770). -/
def clip0 (xs : MArr) : MArr := xs.map (Option.map (fun v => max v 0))

/-- `xs - c` on a masked array (the `alt_std - high_gnd` returns of
compute_aal, lines 761 and 766). -/
def subConst (xs : MArr) (c : ℚ) : MArr := xs.map (Option.map (fun v => v - c))

/-- `np.ma.masked_outside(xs, lo, hi)` (line 771). -/
def maskedOutside (lo hi : ℚ) (xs : MArr) : MArr :=
  xs.map (fun o => o.bind (fun v => if lo ≤ v ∧ v ≤ hi then some v else none))

/-- Elementwise difference of two masked arrays; masked where either operand
is masked (the `alt_std - alt_rad` windows of the stitching functions). -/
def zipDiff : MArr → MArr → MArr
  | some a :: xs, some b :: ys => some (a - b) :: zipDiff xs ys
  | _ :: xs, _ :: ys => none :: zipDiff xs ys
  | _, _ => []

/-- Numpy basic slice `xs[a:b]` (out-of-range bounds are clipped, never an
error). -/
def extract (xs : MArr) (a b : ℕ) : MArr :=
  build (min b xs.length - a) (fun k => getM xs (a + k))

/-- Assignment `dst[a:b] = src[a:b]` between aligned arrays (lines 786, 800
and the radio-stretch assignments of the stitching functions). -/
def copyRange (dst : MArr) (a b : ℕ) (src : MArr) : MArr :=
  build dst.length (fun i => if a ≤ i ∧ i < b then getM src i else getM dst i)

/-- Assignment `dst[a:] = src[a:] - d` (link_baro_rad_fwd line 1021). -/
def overwriteFrom (dst : MArr) (a : ℕ) (src : MArr) (d : ℚ) : MArr :=
  build dst.length (fun i =>
    if a ≤ i then (getM src i).map (fun v => v - d) else getM dst i)

/-- Assignment `dst[:b] = src[:b] - d` (link_baro_rad_rev line 1043). -/
def overwriteTo (dst : MArr) (b : ℕ) (src : MArr) (d : ℚ) : MArr :=
  build dst.length (fun i =>
    if i < b then (getM src i).map (fun v => v - d) else getM dst i)

/-- Helper for `np.ma.clump_unmasked`: scans left to right carrying the index
reached so far and the start of the open unmasked run, if any. -/
def clumpUnmaskedGo : MArr → ℕ → Option ℕ → List (ℕ × ℕ)
  | [], _, none => []
  | [], i, some s => [(s, i)]
  | none :: xs, i, none => clumpUnmaskedGo xs (i + 1) none
  | none :: xs, i, some s => (s, i) :: clumpUnmaskedGo xs (i + 1) none
  | some _ :: xs, i, none => clumpUnmaskedGo xs (i + 1) (some i)
  | some _ :: xs, i, some s => clumpUnmaskedGo xs (i + 1) (some s)

/-- `np.ma.clump_unmasked`: the maximal runs of unmasked samples, as half-open
index intervals in increasing order (line 771). -/
def clumpUnmasked (xs : MArr) : List (ℕ × ℕ) := clumpUnmaskedGo xs 0 none

/-- Helper for `slicesNot`: walks the sorted sections emitting the gaps. -/
def slicesNotGo : ℕ → ℕ → List (ℕ × ℕ) → List (ℕ × ℕ)
  | cur, endAt, [] => if cur < endAt then [(cur, endAt)] else []
  | cur, endAt, (a, b) :: rest =>
    if cur < a then (cur, a) :: slicesNotGo (max b cur) endAt rest
    else slicesNotGo (max b cur) endAt rest

/-- Modelled from the spec: `slices_not` lives in analysis_engine.library,
which is not under src/.  Per the spec, pressure altitude is used "outside the
radio-valid band": this is the complement of the sorted disjoint sections
within `[beginAt, endAt)` (compute_aal line 790). -/
def slicesNot (ss : List (ℕ × ℕ)) (beginAt endAt : ℕ) : List (ℕ × ℕ) :=
  slicesNotGo beginAt endAt ss

/-- Modelled from the spec: `first_valid_sample` lives in
analysis_engine.library, which is not under src/.  Per the spec ("find the
first valid sample of (pressure − radio)"): the index and value of the first
unmasked sample, `none` when every sample is masked. -/
def firstValidSample : MArr → Option (ℕ × ℚ)
  | [] => none
  | none :: xs => (firstValidSample xs).map (fun p => (p.1 + 1, p.2))
  | some v :: _ => some (0, v)

/-- Mean of the unmasked entries of `zipDiff` over `[a, b)` compared with a
threshold: `np.ma.mean(alt_std[sec] - alt_rad_aal[sec]) > t` (line 794).
When every entry is masked the numpy comparison is `masked`, which is falsy,
so the guard is `false` in that case. -/
def meanDiffGt (xs ys : MArr) (a b : ℕ) (t : ℚ) : Bool :=
  let ds := (zipDiff (extract xs a b) (extract ys a b)).filterMap id
  if ds.length = 0 then false
  else decide (ds.foldl (· + ·) 0 / (ds.length : ℚ) > t)

/-- `np.ma.max(alt_rad[y] > threshold)`: true when some unmasked sample in
`[a, b)` exceeds the threshold (the bounce filter, line 782). -/
def anyGtIn (xs : MArr) (a b : ℕ) (t : ℚ) : Bool :=
  (List.range (b - a)).any (fun k =>
    match getM xs (a + k) with
    | some v => decide (v > t)
    | none => false)

/-- Modelled from the spec: `settings.BOUNCED_LANDING_THRESHOLD` is not under
src/; the AltitudeAAL docstring fixes it ("rejection of bounced landings of
less than 35ft height"). -/
def BOUNCED_LANDING_THRESHOLD : ℚ := 35

/-- Python `xs[-1]` for a section list, with a default for the empty case;
`bounce_sections[-1]` in the land branch is `lastD rest b0` after matching
the list as `b0 :: rest`. -/
def lastD : List (ℕ × ℕ) → (ℕ × ℕ) → (ℕ × ℕ)
  | [], d => d
  | x :: xs, _ => lastD xs x

/-- The `mode` argument of compute_aal, which is the `type` attribute of the
dip being processed. -/
inductive AalMode
  | land
  | over_gnd
  | high
deriving DecidableEq

/-- Modelled from the spec: the liftoff-point curvature analysis of
`shift_alt_std` calls `index_at_value`, `peak_curvature` and `coreg` from
analysis_engine.library, which is not under src/.  The source wraps the whole
analysis in `try/except` and falls back to `np.ma.min(alt_std)` on any
failure; the estimate is modelled as that fallback branch.  Every theorem in
this file is independent of the estimated pit value: they rely only on the
final clamping `np.ma.maximum(alt_result, 0.0)` that both branches share. -/
def pitEstimate (alt_std : MArr) : Option ℚ := maMin alt_std

/-- `shift_alt_std` (compute_aal lines 707-755): shift the pressure altitude
down by the estimated liftoff/touchdown pit and clamp to be non-negative. -/
def shiftAltStd (alt_std : MArr) : MArr :=
  match pitEstimate alt_std with
  | none => alt_std.map (fun _ => none)
  | some pit => alt_std.map (Option.map (fun v => max (v - pit) 0))

/-- `link_baro_rad_fwd` (lines 1002-1022): stitch the pressure-only segment
that follows a radio segment.  Scans at most 60 samples forward for the first
valid `(pressure - radio)` offset; with no valid sample the offset is zero.
When a valid sample is found `slip` samples in, the radio signal is stretched
over those samples and the rest of the array is overwritten by the shifted
pressure altitude. -/
def linkBaroRadFwd (baro ralt : ℕ × ℕ) (alt_rad alt_std res : MArr) : MArr :=
  let begin_index := baro.1
  if ralt.2 = begin_index then
    let start_plus_60 := min (begin_index + 60) alt_std.length
    let alt_diff := zipDiff (extract alt_std begin_index start_plus_60)
                            (extract alt_rad begin_index start_plus_60)
    match firstValidSample alt_diff with
    | none => overwriteFrom res begin_index alt_std 0
    | some (slip, up_diff) =>
      let res1 := copyRange res begin_index (begin_index + slip) alt_rad
      overwriteFrom res1 (begin_index + slip) alt_std up_diff
  else res

/-- `link_baro_rad_rev` (lines 1024-1044): the mirrored stitch for a
pressure-only segment that precedes a radio segment, scanning at most 60
samples backward from the boundary. -/
def linkBaroRadRev (baro ralt : ℕ × ℕ) (alt_rad alt_std res : MArr) : MArr :=
  let end_index := baro.2
  if ralt.1 = end_index then
    let end_minus_60 := end_index - 60
    let alt_diff := zipDiff (extract alt_std end_minus_60 end_index)
                            (extract alt_rad end_minus_60 end_index)
    match firstValidSample alt_diff.reverse with
    | none => overwriteTo res end_index alt_std 0
    | some (slip, up_diff) =>
      let res1 := copyRange res (end_index - slip) end_index alt_rad
      overwriteTo res1 (end_index - slip) alt_std up_diff
  else res

/-- The body of `for ralt_section in ralt_sections` (compute_aal
lines 793-805): a section whose mean (pressure - radio) difference exceeds
10,000 ft is skipped (`continue`, line 799); otherwise the clipped radio
altitude is copied over the section and each baro section is stitched to it
forward and backward. -/
def procRaltSection (alt_std alt_rad_aal : MArr)
    (baro_sections : List (ℕ × ℕ)) (acc : MArr) (sec : ℕ × ℕ) : MArr :=
  if meanDiffGt alt_std alt_rad_aal sec.1 sec.2 10000 then acc
  else
    let acc1 := copyRange acc sec.1 sec.2 alt_rad_aal
    baro_sections.foldl
      (fun a bsec =>
        linkBaroRadRev bsec sec alt_rad_aal alt_std
          (linkBaroRadFwd bsec sec alt_rad_aal alt_std a))
      acc1

/-- `AltitudeAAL.compute_aal` (lines 703-807).  `low_hb` is the dip's
`alt_std` attribute and `high_gnd` its `highest_ground`.  The uncaught Python
`IndexError` of the land branch (empty `bounce_sections`, line 783) and the
`ValueError` of derive are modelled by `Except.error`. -/
def computeAal (mode : AalMode) (alt_std : MArr) (low_hb high_gnd : ℚ)
    (alt_rad : Option MArr) : Except String MArr :=
  let alt_result0 : MArr := alt_std.map (fun _ => some 0)
  if alt_rad.elim 0 countValid = 0 then
    -- `alt_rad is None or np.ma.count(alt_rad) == 0` (line 757)
    if mode ≠ AalMode.land then Except.ok (subConst alt_std high_gnd)
    else Except.ok (shiftAltStd alt_std)
  else if mode = AalMode.over_gnd ∧ low_hb - high_gnd > 100 then
    Except.ok (subConst alt_std high_gnd)
  else
    let rad := alt_rad.getD []
    let alt_rad_aal := clip0 rad
    let ralt_sections0 := clumpUnmasked (maskedOutside 0.1 100 alt_rad_aal)
    if ralt_sections0 = [] then Except.ok (shiftAltStd alt_std)
    else
      -- land refinement (lines 778-788); `bounce_sections[0]` on an empty
      -- list raises IndexError in Python
      (if mode = AalMode.land then
        let bounce_sections := ralt_sections0.filter
          (fun y => anyGtIn rad y.1 y.2 BOUNCED_LANDING_THRESHOLD)
        match bounce_sections with
        | [] => Except.error "IndexError: list index out of range"
        | b0 :: rest =>
          let bounce_end := b0.1
          let hundred_feet := (lastD rest b0).2
          let r1 := copyRange alt_result0 bounce_end hundred_feet alt_rad_aal
          -- `alt_result[:bounce_end] = 0.0` is a no-op here: alt_result is
          -- initialised to zeros and only [bounce_end:hundred_feet) was set
          Except.ok (r1, [(0, hundred_feet)])
      else Except.ok (alt_result0, ralt_sections0)).map
      (fun st =>
        let baro_sections := slicesNot st.2 0 alt_std.length
        st.2.foldl (procRaltSection alt_std alt_rad_aal baro_sections) st.1)

/-- A dip slice: half-open covered index range `[lo, hi)` plus the direction
flag.  The source stores Python slices; the reversed landing slice
`slice(quick.stop, alt_idx - 1, -1)` is normalised here to its covered range
with `rev = true` (numpy clips the out-of-range start to the last index, and
`slice(s, -1, -1)` — arising when `alt_idx = 0` — is empty because Python
reads the -1 as the last index). -/
structure DipSlice where
  lo : ℕ
  hi : ℕ
  rev : Bool
deriving DecidableEq

/-- One entry of the `dips` list of dicts built by AltitudeAAL.derive
(lines 839-862). -/
structure Dip where
  dtype : AalMode
  dslice : DipSlice
  alt_std : ℚ
  highest_ground : ℚ
deriving DecidableEq

/-- Placeholder dip for out-of-range list reads; every use is guarded by an
index bound. -/
def dummyDip : Dip := ⟨AalMode.land, ⟨0, 0, false⟩, 0, 0⟩

/-- Python `dips[-1]` with a default for the empty case (the source guards
each use with `if dips:`). -/
def lastDipD : List Dip → Dip → Dip
  | [], d => d
  | x :: xs, _ => lastDipD xs x

/-- `np.ma.argmin`: index and value of the smallest unmasked sample, first
index on ties, `none` if all samples are masked. -/
def argminM : MArr → Option (ℕ × ℚ)
  | [] => none
  | none :: xs => (argminM xs).map (fun p => (p.1 + 1, p.2))
  | some v :: xs =>
    match argminM xs with
    | none => some (0, v)
    | some p => if p.2 < v then some (p.1 + 1, p.2) else some (0, v)

/-- The dip-building while loop of AltitudeAAL.derive (lines 864-940) from
the extrema lists returned by the cycle finder.  `qstart` is `quick.start`,
`tailHi` the normalised upper bound of the reversed landing slice
(`min(quick.stop + 1, len(alt_aal))`, see `DipSlice`).  The uncaught
`ValueError` for a peak where a trough is expected (line 939) is an
`Except.error`. -/
def buildDipsGo (qstart : Option ℕ) (tailHi : ℕ) (idxs : List ℕ)
    (vals : List ℚ) (alt_std : MArr) (alt_rad : Option MArr) :
    ℕ → List Dip → Except String (List Dip)
  | n, dips =>
    if h : n + 1 < vals.length then
      let alt := vals.getD n 0
      let alt_idx := idxs.getD n 0
      let next_alt := vals.getD (n + 1) 0
      let next_alt_idx := idxs.getD (n + 1) 0
      if next_alt > alt then
        -- rising section: takeoff-style land dip (lines 870-880)
        buildDipsGo qstart tailHi idxs vals alt_std alt_rad (n + 1)
          (dips ++ [⟨AalMode.land, ⟨qstart.getD 0, next_alt_idx, false⟩, alt, alt⟩])
      else if vals.length ≤ n + 2 then
        -- falling tail: reversed landing-style land dip (lines 882-893)
        let s : DipSlice := if alt_idx = 0 then ⟨0, 0, true⟩ else ⟨alt_idx, tailHi, true⟩
        buildDipsGo qstart tailHi idxs vals alt_std alt_rad (n + 1)
          (dips ++ [⟨AalMode.land, s, next_alt, next_alt⟩])
      else if vals.getD (n + 2) 0 > next_alt then
        -- a down-and-up section (lines 895-936)
        let du_lo := alt_idx
        let du_hi := idxs.getD (n + 2) 0
        let useRad := alt_rad.elim false (fun rad => countValid (extract rad du_lo du_hi) > 0)
        if useRad then
          let rad := alt_rad.getD []
          let arg := ((argminM (extract rad du_lo du_hi)).map Prod.fst).getD 0 + du_lo
          let hg_max : Option ℚ :=
            (getM alt_std arg).bind (fun a => (getM rad arg).map (fun r => a - r))
          match hg_max with
          | some hg =>
            buildDipsGo qstart tailHi idxs vals alt_std alt_rad (n + 2)
              (dips ++ [⟨AalMode.over_gnd, ⟨du_lo, du_hi, false⟩,
                        (getM alt_std arg).getD 0, hg⟩])
          | none =>
            -- `np.ma.count(hg_max)` is 0: nothing is appended (line 909)
            buildDipsGo qstart tailHi idxs vals alt_std alt_rad (n + 2) dips
        else
          -- no usable radio data: merge into a previous high dip or append a
          -- new one (lines 917-936); `if dips and prev_dip['type'] == 'high'`
          let prev := lastDipD dips dummyDip
          let newDips :=
            if dips ≠ [] ∧ prev.dtype = AalMode.high then
              dips.dropLast ++
                [{ prev with
                    dslice := ⟨prev.dslice.lo, du_hi, prev.dslice.rev⟩,
                    alt_std := min prev.alt_std next_alt }]
            else dips ++ [⟨AalMode.high, ⟨du_lo, du_hi, false⟩, next_alt, next_alt⟩]
          buildDipsGo qstart tailHi idxs vals alt_std alt_rad (n + 2) newDips
      else
        Except.error "Problem in Altitude AAL where data should dip, but instead has a peak."
    else Except.ok dips
termination_by n _ => vals.length - n
decreasing_by all_goals omega

/-- The dip list of one Flight-Active Interval: the while loop started at
`n = 0` with an empty list.  `quick` carries the interval's optional bounds
as in the Python slice, `fullLen` the length of the whole altitude array. -/
def buildDips (quick : Option ℕ × Option ℕ) (fullLen : ℕ) (idxs : List ℕ)
    (vals : List ℚ) (alt_std : MArr) (alt_rad : Option MArr) :
    Except String (List Dip) :=
  let tailHi := min (quick.2.getD (fullLen - 1) + 1) fullLen
  buildDipsGo quick.1 tailHi idxs vals alt_std alt_rad 0 []

/-- One step of the high-dip post-pass (lines 942-974), updating entry `n` of
the current dip list in place. -/
def postStep (ds : List Dip) (n : ℕ) : List Dip :=
  let d := ds.getD n dummyDip
  if d.dtype = AalMode.high then
    if n = 0 then
      if ds.length = 1 then
        -- arbitrary offset in the indeterminate case: note the source
        -- changes `alt_std`, not `highest_ground` (line 947)
        ds.set 0 { d with alt_std := d.highest_ground + 1000 }
      else
        let nd := ds.getD 1 dummyDip
        ds.set 0 { d with highest_ground := d.alt_std - nd.alt_std + nd.highest_ground }
    else if n = ds.length - 1 then
      let pd := ds.getD (n - 1) dummyDip
      ds.set n { d with highest_ground := d.alt_std - pd.alt_std + pd.highest_ground }
    else
      let nd := ds.getD (n + 1) dummyDip
      let pd := ds.getD (n - 1) dummyDip
      ds.set n { d with highest_ground := min pd.highest_ground (min (d.alt_std - 1000) nd.highest_ground) }
  else ds

/-- Runs `postStep` on indices `n, n+1, ...` for `fuel` steps. -/
def postPassGo : ℕ → ℕ → List Dip → List Dip
  | 0, _, ds => ds
  | fuel + 1, n, ds => postPassGo fuel (n + 1) (postStep ds n)

/-- The sequential high-dip post-pass `for n, dip in enumerate(dips)`
(lines 942-974). -/
def postPass (ds : List Dip) : List Dip := postPassGo ds.length 0 ds

/-- Reads the samples of a dip slice, reversed when the slice is a reversed
landing slice (`alt_std.array[dip['slice']]`). -/
def extractDip (xs : MArr) (s : DipSlice) : MArr :=
  let seg := extract xs s.lo s.hi
  if s.rev then seg.reverse else seg

/-- Writes a computed per-dip result back into the output array
(`alt_aal[dip['slice']] = ...`, line 978), undoing the reversal of a
reversed slice. -/
def writeDip (acc : MArr) (s : DipSlice) (vals : MArr) : MArr :=
  build acc.length (fun i =>
    if s.lo ≤ i ∧ i < s.hi then
      if s.rev then getM vals (s.hi - 1 - i) else getM vals (i - s.lo)
    else getM acc i)

/-- The end-section reset of AltitudeAAL.derive (lines 985-987):
`alt_aal[quick.start:alt_idxs[0]+1] = 0.0` and
`alt_aal[alt_idxs[-1]+1:quick.stop] = 0.0`. -/
def resetEnds (acc : MArr) (qs : ℕ) (qstop : Option ℕ) (idxs : List ℕ) : MArr :=
  let a := idxs.headD 0
  let b := idxs.getLastD 0
  let qe := qstop.getD acc.length
  build acc.length (fun i =>
    if (qs ≤ i ∧ i < a + 1) ∨ (b + 1 ≤ i ∧ i < qe) then some 0 else getM acc i)

/-- Modelled from the spec: `cycle_finder` lives in analysis_engine.library,
which is not under src/.  Per the spec it maps a pressure-altitude segment
and a minimum-step threshold to an ordered list of extrema indices and
values, or nothing when fewer than two extrema are found; derive is stated
over an arbitrary function of that shape. -/
abbrev CycleFinder := MArr → ℚ → Option (List ℕ × List ℚ)

/-- The body of `for speedy in speedies` in AltitudeAAL.derive for one
Flight-Active Interval that is not the whole-array slice (lines 825-987):
segment, build dips, run the post-pass, compute each dip's AAL and reset the
end sections.  The first failing step aborts with its error. -/
def processSpeedy (cf : CycleFinder) (alt_rad : Option MArr) (alt_std : MArr)
    (sp : Option ℕ × Option ℕ) (alt_aal : MArr) : Except String MArr :=
  let qs := sp.1.getD 0
  let qe := sp.2.getD alt_std.length
  match cf (extract alt_std qs qe) 500 with
  | none => Except.ok alt_aal
  | some (idxs0, vals) =>
    let idxs := idxs0.map (· + qs)
    (buildDips sp alt_std.length idxs vals alt_std alt_rad).bind (fun dips0 =>
      let dips := postPass dips0
      (dips.foldlM
        (fun acc d =>
          (computeAal d.dtype (extractDip alt_std d.dslice) d.alt_std
            d.highest_ground (alt_rad.map (fun r => extractDip r d.dslice))).map
            (fun res => writeDip acc d.dslice res))
        alt_aal).map
      (fun acc2 => resetEnds acc2 qs sp.2 idxs))

/-- The interval loop of AltitudeAAL.derive (lines 819-987).  A
whole-array slice (`slice(None, None, None)`) breaks out of the loop with
the output accumulated so far (lines 821-823); an uncaught exception from
any interval aborts the whole derive. -/
def deriveAALGo (cf : CycleFinder) (alt_rad : Option MArr) (alt_std : MArr) :
    List (Option ℕ × Option ℕ) → MArr → Except String MArr
  | [], acc => Except.ok acc
  | sp :: rest, acc =>
    if sp.1 = none ∧ sp.2 = none then Except.ok acc
    else
      match processSpeedy cf alt_rad alt_std sp acc with
      | Except.error e => Except.error e
      | Except.ok acc2 => deriveAALGo cf alt_rad alt_std rest acc2

/-- `AltitudeAAL.derive` (lines 809-999): the output starts as zeros
(`alt_aal` is zero on the airfield) and each Flight-Active Interval is
processed in turn. -/
def deriveAAL (cf : CycleFinder) (alt_rad : Option MArr) (alt_std : MArr)
    (speedies : List (Option ℕ × Option ℕ)) : Except String MArr :=
  deriveAALGo cf alt_rad alt_std speedies (alt_std.map (fun _ => some 0))

/-- Plain (unmasked) float-array read for the vertical-speed computation,
which operates on repaired, fully valid clumps; 0 out of bounds (every
in-range use is guarded). -/
def getQ : List ℚ → ℕ → ℚ
  | [], _ => 0
  | x :: _, 0 => x
  | _ :: xs, n + 1 => getQ xs n

/-- Builds a plain array of length `n` from an index-to-value function. -/
def buildQ : ℕ → (ℕ → ℚ) → List ℚ
  | 0, _ => []
  | n + 1, f => f 0 :: buildQ n (fun i => f (i + 1))

/-- Numpy slice `xs[a:b]` on a plain array. -/
def extractQ (xs : List ℚ) (a b : ℕ) : List ℚ :=
  buildQ (min b xs.length - a) (fun k => getQ xs (a + k))

/-- Last element of a plain array (0 when empty; guarded at use sites). -/
def lastQ (xs : List ℚ) : ℚ := xs.getLastD 0

/-- `np.linspace(a, b, n)`: `n` evenly spaced samples from `a` to `b`
inclusive.  Numpy returns `[a]` for `n = 1` — the endpoint is not reached —
and an empty array for `n = 0`. -/
def linspace (a b : ℚ) (n : ℕ) : List ℚ :=
  if n = 0 then []
  else if n = 1 then [a]
  else buildQ n (fun k => a + (b - a) * k / ((n : ℚ) - 1))

/-- Helper for `integrate`: cumulative trapezoidal sum carrying the running
integral and the previous sample. -/
def integrateGo (hz : ℚ) : ℚ → ℚ → List ℚ → List ℚ
  | _, _, [] => []
  | acc, prev, x :: rest =>
    (acc + (prev + x) / (2 * hz)) :: integrateGo hz (acc + (prev + x) / (2 * hz)) x rest

/-- Modelled from the spec: `integrate` lives in analysis_engine.library,
which is not under src/.  Per the spec it is the "pure integration of the
washed-out acceleration": a cumulative trapezoidal integral starting at 0,
one output sample per input sample.  The blend-anchor theorems below hold for
any such cumulative form; only the concrete counterexample evaluates it. -/
def integrate (xs : List ℚ) (hz : ℚ) : List ℚ :=
  match xs with
  | [] => []
  | x :: rest => 0 :: integrateGo hz 0 x rest

/-- The climb ground-effect override of VerticalSpeedInertial.derive
(lines 4299-4309) for one climb band `c` (a contiguous band where repaired
radio altitude rises from 0 to 100 ft): from 5 seconds before lift to the top
of the band the nominal vertical speed is replaced by the integrated
washed-out acceleration plus a linear blend that is zero at the band start
and absorbs the end error; everything before the pre-lift point is zeroed. -/
def applyClimb (hz : ℕ) (azWashout roc : List ℚ) (c : ℕ × ℕ) : List ℚ :=
  let lift_m5s := c.1 - 5 * hz
  let up_slope := integrate (extractQ azWashout lift_m5s c.2) hz
  let blend_end_error := getQ roc (c.2 - 1) - lastQ up_slope
  let blend_slope := linspace 0 blend_end_error (c.2 - c.1)
  buildQ roc.length (fun i =>
    if i < lift_m5s then 0
    else if i < c.1 then getQ up_slope (i - lift_m5s)
    else if i < c.2 then getQ up_slope (i - lift_m5s) + getQ blend_slope (i - c.1)
    else getQ roc i)

/-- The descent ground-effect override of VerticalSpeedInertial.derive
(lines 4322-4330) for one descent band `d` (radio altitude falling from
100 ft to 0), extended 5 seconds past touchdown; the blend is anchored at the
band start and everything after the extended band is zeroed. -/
def applyDescent (hz : ℕ) (azWashout roc : List ℚ) (d : ℕ × ℕ) : List ℚ :=
  let downEnd := min (d.2 + 5 * hz) roc.length
  let down_slope := integrate (extractQ azWashout d.1 downEnd) hz
  let blend := getQ roc d.1 - getQ down_slope 0
  let blend_slope := linspace blend (-(lastQ down_slope)) down_slope.length
  buildQ roc.length (fun i =>
    if i < d.1 then getQ roc i
    else if i < downEnd then getQ down_slope (i - d.1) + getQ blend_slope (i - d.1)
    else 0)

/-- The ground-effect override stage of `inertial_vertical_speed`
(lines 4297-4342): all climb bands are processed first, then all descent
bands, each mutating the rate-of-climb array in place.  The bands are the
output of `slices_from_to(alt_rad_repair, 0, 100)[1]` and
`slices_from_to(alt_rad_repair, 100, 0)[1]`; `slices_from_to` lives in
analysis_engine.library, which is not under src/, so the bands are modelled
from the spec as explicit parameters ("for every contiguous band where radio
altitude rises from 0 to 100 ft", and symmetrically for descents). -/
def groundEffectOverride (hz : ℕ) (azWashout roc : List ℚ)
    (climbs descents : List (ℕ × ℕ)) : List ℚ :=
  let r1 := climbs.foldl (fun r c => applyClimb hz azWashout r c) roc
  descents.foldl (fun r d => applyDescent hz azWashout r d) r1

/-! Basic lemmas about the masked-array model. -/

theorem getM_build (n : ℕ) (f : ℕ → Option ℚ) (i : ℕ) :
    getM (build n f) i = if i < n then f i else none := by
  induction n generalizing f i with
  | zero => simp [build, getM]
  | succ m ih =>
    cases i with
    | zero => simp [build, getM]
    | succ j => simp [build, getM, ih, Nat.succ_lt_succ_iff]

theorem length_build (n : ℕ) (f : ℕ → Option ℚ) : (build n f).length = n := by
  induction n generalizing f with
  | zero => simp [build]
  | succ m ih => simp [build, ih]

theorem getM_map_opt (g : ℚ → ℚ) (xs : MArr) (i : ℕ) :
    getM (xs.map (Option.map g)) i = (getM xs i).map g := by
  induction xs generalizing i with
  | nil => simp [getM]
  | cons x rest ih =>
    cases i with
    | zero => simp [getM]
    | succ j => simpa [getM] using ih j

theorem getM_map_none (xs : MArr) (i : ℕ) :
    getM (xs.map (fun _ => (none : Option ℚ))) i = none := by
  induction xs generalizing i with
  | nil => simp [getM]
  | cons x rest ih =>
    cases i with
    | zero => simp [getM]
    | succ j => simpa [getM] using ih j

theorem countValid_pos (xs : MArr) (i : ℕ) (v : ℚ) (h : getM xs i = some v) :
    0 < countValid xs := by
  induction xs generalizing i with
  | nil => simp [getM] at h
  | cons x rest ih =>
    cases i with
    | zero =>
      simp [getM] at h
      subst h
      simp [countValid]
    | succ j =>
      simp [getM] at h
      cases x with
      | none => simpa [countValid] using ih j h
      | some w => simp [countValid]

theorem countValid_zero_all_none (xs : MArr) (h : countValid xs = 0) :
    ∀ o ∈ xs, o = none := by
  induction xs with
  | nil => simp
  | cons x rest ih =>
    cases x with
    | none =>
      intro o ho
      rcases List.mem_cons.mp ho with h1 | h1
      · exact h1
      · exact ih (by simpa [countValid] using h) o h1
    | some w => simp [countValid] at h

theorem clumpGo_all_none (xs : MArr) (h : ∀ o ∈ xs, o = none) (i : ℕ) :
    clumpUnmaskedGo xs i none = [] := by
  induction xs generalizing i with
  | nil => simp [clumpUnmaskedGo]
  | cons x rest ih =>
    have hx : x = none := h x (List.mem_cons_self x rest)
    subst hx
    simpa [clumpUnmaskedGo] using ih (fun o ho => h o (List.mem_cons_of_mem _ ho)) (i + 1)

/-! C10 and its witness. -/

/-- C10: for every dip of type over_gnd whose lowest pressure altitude
exceeds the estimated highest ground by more than 100 ft, compute_aal
returns `alt_std - highest_ground` for the whole dip, without clamping to
zero and without consulting the radio altitude, even when valid radio
samples in the [0.1, 100] ft band exist within the dip (lines 765-766). -/
theorem c10_over_gnd_unclamped (alt_std rad : MArr) (low_hb high_gnd : ℚ)
    (hrad : ∃ i v, getM rad i = some v ∧ 0.1 ≤ v ∧ v ≤ 100)
    (hgap : low_hb - high_gnd > 100) :
    computeAal AalMode.over_gnd alt_std low_hb high_gnd (some rad) =
      Except.ok (subConst alt_std high_gnd) := by
  obtain ⟨i, v, hv, _, _⟩ := hrad
  have hc : ¬ countValid rad = 0 :=
    Nat.pos_iff_ne_zero.mp (countValid_pos rad i v hv)
  simp only [computeAal, Option.elim_some]
  rw [if_neg hc, if_pos ⟨trivial, hgap⟩]

/-- Witness for C10 at a concrete over_gnd dip: the radio altitude holds a
valid in-band sample (90 ft), the gap condition holds (2500 - 2350 > 100),
and the output is the unclamped shifted pressure altitude, negative at the
middle sample. -/
theorem c10_witness :
    computeAal AalMode.over_gnd [some 2500, some 1200, some 2500] 2500 2350
      (some [some 120, some 90, some 130]) =
      Except.ok [some 150, some (-1150), some 150] := by
  rw [c10_over_gnd_unclamped _ _ _ _
    ⟨1, 90, by norm_num [getM], by norm_num, by norm_num⟩ (by norm_num)]
  norm_num [subConst]

/-! C9 and its witness. -/

/-- C9: in land mode, whenever the radio altitude has at least one valid
section within [0.1, 100] ft but no such section contains a sample above
BOUNCED_LANDING_THRESHOLD, the bounce_sections list is empty and the
indexing `bounce_sections[0]` (line 783) raises an uncaught IndexError. -/
theorem c9_bounce_index_error (alt_std rad : MArr) (low_hb high_gnd : ℚ)
    (h1 : clumpUnmasked (maskedOutside 0.1 100 (clip0 rad)) ≠ [])
    (h2 : ∀ s ∈ clumpUnmasked (maskedOutside 0.1 100 (clip0 rad)),
            anyGtIn rad s.1 s.2 BOUNCED_LANDING_THRESHOLD = false) :
    computeAal AalMode.land alt_std low_hb high_gnd (some rad) =
      Except.error "IndexError: list index out of range" := by
  have hc : ¬ countValid rad = 0 := by
    intro h0
    apply h1
    have hall : ∀ o ∈ maskedOutside 0.1 100 (clip0 rad), o = none := by
      intro o ho
      obtain ⟨u, hu, rfl⟩ := List.mem_map.mp ho
      obtain ⟨w, hw, rfl⟩ := List.mem_map.mp hu
      have : w = none := countValid_zero_all_none rad h0 w hw
      subst this
      simp
    exact clumpGo_all_none _ hall 0
  have hfilter : (clumpUnmasked (maskedOutside 0.1 100 (clip0 rad))).filter
      (fun y => anyGtIn rad y.1 y.2 BOUNCED_LANDING_THRESHOLD) = [] := by
    apply List.filter_eq_nil_iff.mpr
    intro s hs
    simp [h2 s hs]
  simp only [computeAal, Option.elim_some]
  rw [if_neg hc]
  rw [if_neg (by simp : ¬ (AalMode.land = AalMode.over_gnd ∧ low_hb - high_gnd > 100))]
  simp only [Option.getD]
  rw [if_neg h1]
  simp only [if_true]
  rw [hfilter]
  rfl

/-- Witness for C9: a two-sample land dip whose radio altitude reads a valid
constant 20 ft — inside [0.1, 100] but never above the 35 ft bounce
threshold — makes compute_aal fail with the IndexError. -/
theorem c9_witness :
    computeAal AalMode.land [some 5, some 6] 5 5 (some [some 20, some 20]) =
      Except.error "IndexError: list index out of range" := by
  refine c9_bounce_index_error _ _ _ _ ?_ ?_
  · norm_num [clumpUnmasked, clumpUnmaskedGo, maskedOutside, clip0]
  · intro s hs
    norm_num [clumpUnmasked, clumpUnmaskedGo, maskedOutside, clip0] at hs
    subst hs
    norm_num [anyGtIn, getM, BOUNCED_LANDING_THRESHOLD, List.range_succ]

/-! C1: counterexample, amended theorem and witness. -/

/-- C1 counterexample: an over_gnd dip whose lowest pressure altitude clears
the estimated ground by more than 100 ft takes the `alt_std - high_gnd`
branch of compute_aal (line 766), which does not clamp: with valid in-band
radio present, the middle output sample is -850 ft, so the output is not
non-negative at every index. -/
theorem c1_counterexample :
    computeAal AalMode.over_gnd [some 2000, some 1000, some 2000] 2000 1850
      (some [some 150, none, some 150]) =
      Except.ok [some 150, some (-850), some 150] ∧ (-850 : ℚ) < 0 := by
  constructor
  · norm_num [computeAal, countValid, subConst]
  · norm_num

/-- C1 (amended): the Altitude AAL output is non-negative at every index
produced by the clamped paths — the shift_alt_std pressure path (clamped by
`np.ma.maximum(alt_result, 0.0)`, line 755) and the clipped radio-altitude
values (line 770) — and derive explicitly zeroes the output from the
interval start through the first extremum and from past the last extremum to
the interval end (lines 985-987); the branches of compute_aal returning
`alt_std - high_gnd` (lines 761, 766) do not clamp and can produce negative
samples. -/
theorem c1_clamped_paths_and_reset :
    (∀ xs i v, getM (shiftAltStd xs) i = some v → 0 ≤ v) ∧
    (∀ xs i v, getM (clip0 xs) i = some v → 0 ≤ v) ∧
    (∀ acc qs qstop idxs i, qs ≤ i → i < idxs.headD 0 + 1 → i < acc.length →
      getM (resetEnds acc qs qstop idxs) i = some 0) ∧
    (∀ acc qs qstop idxs i, idxs.getLastD 0 + 1 ≤ i → i < qstop.getD acc.length →
      i < acc.length → getM (resetEnds acc qs qstop idxs) i = some 0) := by
  refine ⟨?_, ?_, ?_, ?_⟩
  · intro xs i v h
    unfold shiftAltStd at h
    cases hp : pitEstimate xs with
    | none =>
      rw [hp, getM_map_none] at h
      exact absurd h (by simp)
    | some pit =>
      rw [hp, getM_map_opt] at h
      obtain ⟨w, hw, rfl⟩ := Option.map_eq_some'.mp h
      exact le_max_right _ _
  · intro xs i v h
    unfold clip0 at h
    rw [getM_map_opt] at h
    obtain ⟨w, hw, rfl⟩ := Option.map_eq_some'.mp h
    exact le_max_right _ _
  · intro acc qs qstop idxs i h1 h2 h3
    unfold resetEnds
    rw [getM_build, if_pos h3, if_pos (Or.inl ⟨h1, h2⟩)]
  · intro acc qs qstop idxs i h1 h2 h3
    unfold resetEnds
    rw [getM_build, if_pos h3, if_pos (Or.inr ⟨h1, h2⟩)]

/-- Witness for C1: on a concrete five-sample array the shift path yields a
non-negative 300 ft sample and the end reset zeroes the sample just inside
the interval start. -/
theorem c1_witness :
    (0 : ℚ) ≤ 300 ∧
      getM (resetEnds [some 7, some 7, some 7, some 7, some 7] 0 (some 5) [1, 3]) 1 =
        some 0 := by
  constructor
  · exact c1_clamped_paths_and_reset.1 [some 100, some 400] 1 300
      (by norm_num [shiftAltStd, pitEstimate, maMin, getM])
  · exact c1_clamped_paths_and_reset.2.2.1 [some 7, some 7, some 7, some 7, some 7]
      0 (some 5) [1, 3] 1 (by norm_num) (by norm_num [List.headD]) (by norm_num)

/-! Lemmas about windows, reversal and the first valid sample, for the
stitching claims. -/

theorem length_zipDiff (xs ys : MArr) :
    (zipDiff xs ys).length = min xs.length ys.length := by
  induction xs generalizing ys with
  | nil => cases ys <;> simp [zipDiff]
  | cons x rest ih =>
    cases ys with
    | nil => cases x <;> simp [zipDiff]
    | cons y rest2 =>
      cases x <;> cases y <;> simp [zipDiff, ih] <;> omega

theorem getM_zipDiff_some (xs ys : MArr) (i : ℕ) (d : ℚ)
    (h : getM (zipDiff xs ys) i = some d) :
    ∃ a b, getM xs i = some a ∧ getM ys i = some b ∧ d = a - b := by
  induction xs generalizing ys i with
  | nil => cases ys <;> simp [zipDiff, getM] at h
  | cons x rest ih =>
    cases ys with
    | nil => cases x <;> simp [zipDiff, getM] at h
    | cons y rest2 =>
      cases i with
      | zero =>
        cases x <;> cases y <;> simp [zipDiff, getM] at h ⊢
        exact h.symm
      | succ j =>
        cases x <;> cases y <;> simp only [zipDiff, getM] at h ⊢ <;>
          exact ih rest2 j h

theorem getM_extract (xs : MArr) (a b k : ℕ) :
    getM (extract xs a b) k =
      if k < min b xs.length - a then getM xs (a + k) else none := by
  unfold extract
  rw [getM_build]

theorem firstValidSample_some (xs : MArr) (s : ℕ) (d : ℚ)
    (h : firstValidSample xs = some (s, d)) :
    s < xs.length ∧ getM xs s = some d := by
  induction xs generalizing s with
  | nil => simp [firstValidSample] at h
  | cons x rest ih =>
    cases x with
    | none =>
      simp only [firstValidSample, Option.map_eq_some'] at h
      obtain ⟨p, hp, he⟩ := h
      have hs : p.1 + 1 = s := ((Prod.mk.injEq _ _ _ _).mp he).1
      have hd : p.2 = d := ((Prod.mk.injEq _ _ _ _).mp he).2
      have hpd : p = (p.1, d) := by rw [← hd]
      rw [hpd] at hp
      obtain ⟨h1, h2⟩ := ih p.1 hp
      constructor
      · simp only [List.length_cons]
        omega
      · rw [← hs]
        simpa [getM] using h2
    | some v =>
      simp [firstValidSample] at h
      obtain ⟨rfl, rfl⟩ := h
      simp [getM]

theorem getM_append (as bs : MArr) (i : ℕ) :
    getM (as ++ bs) i = if i < as.length then getM as i else getM bs (i - as.length) := by
  induction as generalizing i with
  | nil => simp [getM]
  | cons a rest ih =>
    cases i with
    | zero => simp [getM]
    | succ j => simp [getM, ih, Nat.succ_lt_succ_iff]

theorem getM_reverse (xs : MArr) (i : ℕ) (h : i < xs.length) :
    getM xs.reverse i = getM xs (xs.length - 1 - i) := by
  induction xs generalizing i with
  | nil => simp at h
  | cons x rest ih =>
    rw [List.reverse_cons, getM_append]
    rcases Nat.lt_or_ge i rest.length with hlt | hge
    · rw [if_pos (by simpa using hlt), ih i hlt]
      have h1 : rest.length + 1 - 1 - i = (rest.length - 1 - i) + 1 := by omega
      simp only [List.length_cons, h1, getM]
    · have : i = rest.length := by
        simp only [List.length_cons] at h
        omega
      subst this
      simp [getM]

/-! C4: counterexample, amended theorem and witness. -/

/-- C4 counterexample: with the radio segment ending at index 2 and the
pressure-only segment holding no valid (pressure - radio) sample in the
60-sample window — the radio altitude is masked there — the offset is zero
and the pressure segment is pasted unshifted: the output jumps from 1 ft to
500 ft at the handover index although both input signals are constant across
it, so the zero-offset case does not prevent a step discontinuity. -/
theorem c4_counterexample :
    getM (linkBaroRadFwd (2, 8) (0, 2)
      [some 1, some 1, none, none, none, none, none, none]
      [some 500, some 500, some 500, some 500, some 500, some 500, some 500, some 500]
      [some 1, some 1, some 0, some 0, some 0, some 0, some 0, some 0]) 2 = some 500 ∧
    getM (linkBaroRadFwd (2, 8) (0, 2)
      [some 1, some 1, none, none, none, none, none, none]
      [some 500, some 500, some 500, some 500, some 500, some 500, some 500, some 500]
      [some 1, some 1, some 0, some 0, some 0, some 0, some 0, some 0]) 1 = some 1 ∧
    (500 : ℚ) ≠ 1 := by
  refine ⟨?_, ?_, by norm_num⟩ <;>
    norm_num [linkBaroRadFwd, firstValidSample, zipDiff, extract, build, getM,
      overwriteFrom, sub_zero]

/-- C4 (amended): at each boundary between a radio-valid segment and a
pressure-only segment the stitching scans at most 60 samples into the
pressure-only segment (forward after radio data, backward before it) and
offsets the pressure segment by the first valid (pressure - radio) sample
found, so the output equals the clipped radio altitude at the handover
sample; when no valid sample exists in the window the offset is zero and the
pressure segment is pasted unshifted, so a step discontinuity can remain at
the handover index. -/
theorem c4_stitching :
    (∀ (baro ralt : ℕ × ℕ) (rad std res : MArr) (s : ℕ) (d : ℚ),
      ralt.2 = baro.1 → res.length = std.length →
      firstValidSample (zipDiff (extract std baro.1 (min (baro.1 + 60) std.length))
          (extract rad baro.1 (min (baro.1 + 60) std.length))) = some (s, d) →
      s < 60 ∧
        getM (linkBaroRadFwd baro ralt rad std res) (baro.1 + s) =
          getM rad (baro.1 + s)) ∧
    (∀ (baro ralt : ℕ × ℕ) (rad std res : MArr) (i : ℕ),
      ralt.2 = baro.1 →
      firstValidSample (zipDiff (extract std baro.1 (min (baro.1 + 60) std.length))
          (extract rad baro.1 (min (baro.1 + 60) std.length))) = none →
      baro.1 ≤ i → i < res.length →
      getM (linkBaroRadFwd baro ralt rad std res) i = getM std i) ∧
    (∀ (baro ralt : ℕ × ℕ) (rad std res : MArr) (s : ℕ) (d : ℚ),
      ralt.1 = baro.2 → res.length = std.length → rad.length = std.length →
      baro.2 ≤ std.length →
      firstValidSample (zipDiff (extract std (baro.2 - 60) baro.2)
          (extract rad (baro.2 - 60) baro.2)).reverse = some (s, d) →
      s < 60 ∧
        getM (linkBaroRadRev baro ralt rad std res) (baro.2 - 1 - s) =
          getM rad (baro.2 - 1 - s)) ∧
    (∀ (baro ralt : ℕ × ℕ) (rad std res : MArr) (i : ℕ),
      ralt.1 = baro.2 →
      firstValidSample (zipDiff (extract std (baro.2 - 60) baro.2)
          (extract rad (baro.2 - 60) baro.2)).reverse = none →
      i < baro.2 → i < res.length →
      getM (linkBaroRadRev baro ralt rad std res) i = getM std i) := by
  refine ⟨?_, ?_, ?_, ?_⟩
  · intro baro ralt rad std res s d h1 h2 h3
    obtain ⟨hs, hw⟩ := firstValidSample_some _ _ _ h3
    rw [length_zipDiff] at hs
    obtain ⟨a, r, ha, hr, rfl⟩ := getM_zipDiff_some _ _ _ _ hw
    rw [getM_extract] at ha hr
    have hsa : s < min (min (baro.1 + 60) std.length) std.length - baro.1 := by
      by_contra hcon
      rw [if_neg hcon] at ha
      exact absurd ha (by simp)
    have hsr : s < min (min (baro.1 + 60) std.length) rad.length - baro.1 := by
      by_contra hcon
      rw [if_neg hcon] at hr
      exact absurd hr (by simp)
    rw [if_pos hsa] at ha
    rw [if_pos hsr] at hr
    have hlt : baro.1 + s < std.length := by omega
    constructor
    · omega
    · simp only [linkBaroRadFwd]
      rw [if_pos h1, h3]
      show getM (overwriteFrom (copyRange res baro.1 (baro.1 + s) rad)
        (baro.1 + s) std (a - r)) (baro.1 + s) = getM rad (baro.1 + s)
      unfold overwriteFrom
      rw [getM_build,
        if_pos (by rw [copyRange, length_build, h2]; exact hlt),
        if_pos (le_refl _), ha, hr]
      simp
  · intro baro ralt rad std res i h1 h2 h3 h4
    simp only [linkBaroRadFwd]
    rw [if_pos h1, h2]
    show getM (overwriteFrom res baro.1 std 0) i = getM std i
    unfold overwriteFrom
    rw [getM_build, if_pos h4, if_pos h3]
    cases getM std i <;> simp
  · intro baro ralt rad std res s d h1 h2 hrl h4 h5
    obtain ⟨hs, hw⟩ := firstValidSample_some _ _ _ h5
    rw [List.length_reverse, length_zipDiff] at hs
    have hlstd : (extract std (baro.2 - 60) baro.2).length =
        baro.2 - (baro.2 - 60) := by
      rw [extract, length_build]
      omega
    have hlrad : (extract rad (baro.2 - 60) baro.2).length =
        baro.2 - (baro.2 - 60) := by
      rw [extract, length_build, hrl]
      omega
    rw [hlstd, hlrad, min_self] at hs
    rw [getM_reverse _ _ (by rw [length_zipDiff, hlstd, hlrad, min_self]; exact hs),
      length_zipDiff, hlstd, hlrad, min_self] at hw
    obtain ⟨a, r, ha, hr, rfl⟩ := getM_zipDiff_some _ _ _ _ hw
    rw [getM_extract] at ha hr
    have hidx : baro.2 - 60 + (baro.2 - (baro.2 - 60) - 1 - s) = baro.2 - 1 - s := by
      omega
    have hsa : baro.2 - (baro.2 - 60) - 1 - s <
        min baro.2 std.length - (baro.2 - 60) := by
      omega
    have hsr : baro.2 - (baro.2 - 60) - 1 - s <
        min baro.2 rad.length - (baro.2 - 60) := by
      rw [hrl]
      omega
    rw [if_pos hsa, hidx] at ha
    rw [if_pos hsr, hidx] at hr
    constructor
    · omega
    · simp only [linkBaroRadRev]
      rw [if_pos h1, h5]
      show getM (overwriteTo (copyRange res (baro.2 - s) baro.2 rad)
        (baro.2 - s) std (a - r)) (baro.2 - 1 - s) = getM rad (baro.2 - 1 - s)
      unfold overwriteTo
      rw [getM_build,
        if_pos (by rw [copyRange, length_build, h2]; omega),
        if_pos (by omega), ha, hr]
      simp
  · intro baro ralt rad std res i h1 h2 h3 h4
    simp only [linkBaroRadRev]
    rw [if_pos h1, h2]
    show getM (overwriteTo res baro.2 std 0) i = getM std i
    unfold overwriteTo
    rw [getM_build, if_pos h4, if_pos h3]
    cases getM std i <;> simp

/-- Witness for C4 at a concrete boundary: the radio segment ends at index 2,
the first valid (pressure - radio) sample sits right at the boundary with
offset 1 ft, and the stitched output at the handover index equals the radio
value 300 ft. -/
theorem c4_witness :
    (0 : ℕ) < 60 ∧
      getM (linkBaroRadFwd (2, 5) (0, 2)
        [some 1, some 1, some 300, none, none]
        [some 1, some 1, some 301, some 302, some 303]
        [some 1, some 1, some 0, some 0, some 0]) (2 + 0) =
      getM [some 1, some 1, some 300, none, none] (2 + 0) := by
  exact c4_stitching.1 (2, 5) (0, 2)
    [some 1, some 1, some 300, none, none]
    [some 1, some 1, some 301, some 302, some 303]
    [some 1, some 1, some 0, some 0, some 0] 0 1 rfl rfl
    (by norm_num [firstValidSample, zipDiff, extract, build, getM])

/-! Lemmas for the vertical-speed blend, then C6. -/

theorem getQ_buildQ (n : ℕ) (f : ℕ → ℚ) (i : ℕ) :
    getQ (buildQ n f) i = if i < n then f i else 0 := by
  induction n generalizing f i with
  | zero => simp [buildQ, getQ]
  | succ m ih =>
    cases i with
    | zero => simp [buildQ, getQ]
    | succ j => simp [buildQ, getQ, ih, Nat.succ_lt_succ_iff]

theorem length_buildQ (n : ℕ) (f : ℕ → ℚ) : (buildQ n f).length = n := by
  induction n generalizing f with
  | zero => simp [buildQ]
  | succ m ih => simp [buildQ, ih]

theorem length_integrateGo (hz acc prev : ℚ) (xs : List ℚ) :
    (integrateGo hz acc prev xs).length = xs.length := by
  induction xs generalizing acc prev with
  | nil => simp [integrateGo]
  | cons x rest ih => simp [integrateGo, ih]

theorem length_integrate (xs : List ℚ) (hz : ℚ) :
    (integrate xs hz).length = xs.length := by
  cases xs with
  | nil => simp [integrate]
  | cons x rest => simp [integrate, length_integrateGo]

theorem length_extractQ (xs : List ℚ) (a b : ℕ) :
    (extractQ xs a b).length = min b xs.length - a := by
  simp [extractQ, length_buildQ]

theorem length_linspace (a b : ℚ) (n : ℕ) : (linspace a b n).length = n := by
  unfold linspace
  rcases Nat.eq_zero_or_pos n with h | h
  · simp [h]
  · rcases Nat.lt_or_ge n 2 with h2 | h2
    · have : n = 1 := by omega
      simp [this]
    · rw [if_neg (by omega), if_neg (by omega), length_buildQ]

theorem linspace_first (a b : ℚ) (n : ℕ) (h : 1 ≤ n) :
    getQ (linspace a b n) 0 = a := by
  unfold linspace
  rcases Nat.lt_or_ge n 2 with h2 | h2
  · have : n = 1 := by omega
    simp [this, getQ]
  · rw [if_neg (by omega), if_neg (by omega), getQ_buildQ, if_pos (by omega)]
    simp

theorem linspace_last (a b : ℚ) (n : ℕ) (h : 2 ≤ n) :
    getQ (linspace a b n) (n - 1) = b := by
  unfold linspace
  rw [if_neg (by omega), if_neg (by omega), getQ_buildQ, if_pos (by omega)]
  have hne : ((n : ℚ) - 1) ≠ 0 := by
    have : (2 : ℚ) ≤ (n : ℚ) := by exact_mod_cast h
    linarith
  have hcast : ((n - 1 : ℕ) : ℚ) = (n : ℚ) - 1 := by
    have : 1 ≤ n := by omega
    push_cast [this]
    ring
  rw [hcast]
  field_simp

theorem lastQ_eq_getQ (xs : List ℚ) (h : xs ≠ []) :
    lastQ xs = getQ xs (xs.length - 1) := by
  induction xs with
  | nil => simp at h
  | cons x rest ih =>
    cases rest with
    | nil => simp [lastQ, getQ]
    | cons y rest2 =>
      simp only [lastQ, List.getLastD_cons] at ih ⊢
      rw [ih (by simp)]
      simp [getQ]

/-- C6 counterexample: with two climb bands — radio altitude rising 0 to
100 ft at samples [2,5) and again at [12,15), a touch-and-go — the second
band's pre-lift zeroing `roc[:lift_m5s] = 0.0` (line 4307) overwrites the
first band's samples, so the final output at the first band's last sample is
0 while the nominal complementary-filter value there is 7: the claimed
equality does not hold at the last sample of every climb band. -/
theorem c6_counterexample :
    getQ (groundEffectOverride 1
      [0, 0, 0, 0, 0, 0, 0, 0, 0, 0, 0, 0, 0, 0, 0, 0]
      [7, 7, 7, 7, 7, 7, 7, 7, 7, 7, 7, 7, 7, 7, 7, 7]
      [(2, 5), (12, 15)] []) 4 = 0 ∧
    getQ [7, 7, 7, 7, 7, 7, 7, 7, 7, 7, 7, 7, 7, 7, 7, 7] 4 = 7 ∧
    (0 : ℚ) ≠ 7 := by
  refine ⟨?_, by norm_num [getQ], by norm_num⟩
  norm_num [groundEffectOverride, applyClimb, getQ_buildQ, length_buildQ]

/-- C6 (amended): the blend is exactly anchored within a single band: with
one climb band (of at least two samples, since `np.linspace` with a single
sample never reaches its endpoint) the output at the band's last sample
equals the nominal complementary-filter value, and with one descent band the
output at the band's first sample equals the nominal value; with several
bands a later climb band's pre-lift zeroing or an earlier descent band's
post-touchdown zeroing can overwrite another band's anchored sample, so the
equality does not hold at every band of a flight. -/
theorem c6_blend_anchor :
    (∀ (hz : ℕ) (azw roc : List ℚ) (c : ℕ × ℕ),
      c.1 + 2 ≤ c.2 → c.2 ≤ roc.length → azw.length = roc.length →
      getQ (groundEffectOverride hz azw roc [c] []) (c.2 - 1) =
        getQ roc (c.2 - 1)) ∧
    (∀ (hz : ℕ) (azw roc : List ℚ) (d : ℕ × ℕ),
      d.1 < d.2 → d.1 < roc.length → azw.length = roc.length →
      getQ (groundEffectOverride hz azw roc [] [d]) d.1 = getQ roc d.1) := by
  constructor
  · intro hz azw roc c hcc hc2 hlen
    show getQ (applyClimb hz azw roc c) (c.2 - 1) = getQ roc (c.2 - 1)
    unfold applyClimb
    have hup : (integrate (extractQ azw (c.1 - 5 * hz) c.2) hz).length =
        c.2 - (c.1 - 5 * hz) := by
      rw [length_integrate, length_extractQ, hlen]
      omega
    rw [getQ_buildQ, if_pos (by omega), if_neg (by omega), if_neg (by omega),
      if_pos (by omega)]
    have hml : c.2 - 1 - c.1 = (c.2 - c.1) - 1 := by omega
    rw [hml, linspace_last _ _ _ (by omega),
      lastQ_eq_getQ _ (by intro hnil; rw [hnil] at hup; simp at hup; omega), hup]
    have hidx : c.2 - (c.1 - 5 * hz) - 1 = c.2 - 1 - (c.1 - 5 * hz) := by omega
    rw [hidx]
    ring
  · intro hz azw roc d hdd hd1 hlen
    show getQ (applyDescent hz azw roc d) d.1 = getQ roc d.1
    unfold applyDescent
    have hdown : (integrate (extractQ azw d.1 (min (d.2 + 5 * hz) roc.length)) hz).length =
        min (d.2 + 5 * hz) roc.length - d.1 := by
      rw [length_integrate, length_extractQ, hlen]
      omega
    rw [getQ_buildQ, if_pos (by omega), if_neg (by omega), if_pos (by omega)]
    simp only [Nat.sub_self]
    rw [linspace_first _ _ _ (by rw [hdown]; omega)]
    ring

/-- Witness for C6 on concrete single bands: a climb band [1, 4) and a
descent band [2, 5) over six samples of nominal vertical speed, anchored
exactly at the band end and band start respectively. -/
theorem c6_witness :
    getQ (groundEffectOverride 1 [2, 2, 2, 2, 2, 2] [9, 9, 9, 9, 9, 9]
      [(1, 4)] []) 3 = getQ [9, 9, 9, 9, 9, 9] 3 ∧
    getQ (groundEffectOverride 1 [2, 2, 2, 2, 2, 2] [9, 9, 9, 9, 9, 9]
      [] [(2, 5)]) 2 = getQ [9, 9, 9, 9, 9, 9] 2 := by
  constructor
  · exact c6_blend_anchor.1 1 [2, 2, 2, 2, 2, 2] [9, 9, 9, 9, 9, 9] (1, 4)
      (by norm_num) (by norm_num) (by norm_num)
  · exact c6_blend_anchor.2 1 [2, 2, 2, 2, 2, 2] [9, 9, 9, 9, 9, 9] (2, 5)
      (by norm_num) (by norm_num) (by norm_num)

/-! Lemmas for whole-dip in-band radio altitude, shared by C3 and C7. -/

theorem getM_none_of_ge (xs : MArr) (i : ℕ) (h : xs.length ≤ i) :
    getM xs i = none := by
  induction xs generalizing i with
  | nil => simp [getM]
  | cons x rest ih =>
    cases i with
    | zero => simp at h
    | succ j =>
      simp only [List.length_cons] at h
      simpa [getM] using ih j (by omega)

theorem marrExt (xs ys : MArr) (hl : xs.length = ys.length)
    (h : ∀ i, getM xs i = getM ys i) : xs = ys := by
  induction xs generalizing ys with
  | nil =>
    cases ys with
    | nil => rfl
    | cons y rest => simp at hl
  | cons x rest ih =>
    cases ys with
    | nil => simp at hl
    | cons y rest2 =>
      have hx : x = y := h 0
      have ht : rest = rest2 :=
        ih rest2 (by simpa using hl) (fun i => h (i + 1))
      rw [hx, ht]

theorem clumpGo_all_some (xs : MArr) (h : ∀ o ∈ xs, ∃ v, o = some v) (i s : ℕ) :
    clumpUnmaskedGo xs i (some s) = [(s, i + xs.length)] := by
  induction xs generalizing i with
  | nil => simp [clumpUnmaskedGo]
  | cons x rest ih =>
    obtain ⟨v, rfl⟩ := h x (List.mem_cons_self x rest)
    rw [show clumpUnmaskedGo (some v :: rest) i (some s) =
      clumpUnmaskedGo rest (i + 1) (some s) from rfl]
    rw [ih (fun o ho => h o (List.mem_cons_of_mem _ ho)) (i + 1)]
    have : i + 1 + rest.length = i + (rest.length + 1) := by omega
    rw [this]
    rfl

theorem clump_all_some (xs : MArr) (hne : xs ≠ [])
    (h : ∀ o ∈ xs, ∃ v, o = some v) :
    clumpUnmasked xs = [(0, xs.length)] := by
  cases xs with
  | nil => exact absurd rfl hne
  | cons x rest =>
    obtain ⟨v, rfl⟩ := h x (List.mem_cons_self x rest)
    show clumpUnmaskedGo (some v :: rest) 0 none = [(0, rest.length + 1)]
    rw [show clumpUnmaskedGo (some v :: rest) 0 none =
      clumpUnmaskedGo rest 1 (some 0) from rfl]
    rw [clumpGo_all_some rest (fun o ho => h o (List.mem_cons_of_mem _ ho)) 1 0]
    have : 1 + rest.length = rest.length + 1 := by omega
    rw [this]

theorem copyRange_all (dst src : MArr) (b : ℕ) (hd : dst.length = src.length)
    (hb : src.length ≤ b) : copyRange dst 0 b src = src := by
  apply marrExt
  · rw [copyRange, length_build, hd]
  · intro i
    rw [copyRange, getM_build]
    rcases Nat.lt_or_ge i src.length with hlt | hge
    · rw [if_pos (by omega), if_pos ⟨Nat.zero_le _, by omega⟩]
    · rw [getM_none_of_ge _ _ hge]
      by_cases hi : i < dst.length
      · rw [if_pos hi, if_neg (by omega)]
        exact getM_none_of_ge _ _ (by omega)
      · rw [if_neg hi]

theorem clip0_id_of_nonneg (xs : MArr)
    (h : ∀ o ∈ xs, ∃ v, o = some v ∧ (0 : ℚ) ≤ v) : clip0 xs = xs := by
  induction xs with
  | nil => rfl
  | cons x rest ih =>
    obtain ⟨v, rfl, hv⟩ := h x (List.mem_cons_self x rest)
    simp only [clip0, List.map_cons, Option.map_some']
    rw [max_eq_left hv]
    have := ih (fun o ho => h o (List.mem_cons_of_mem _ ho))
    simp only [clip0] at this
    rw [this]

theorem maskedOutside_id_of_inband (lo hi : ℚ) (xs : MArr)
    (h : ∀ o ∈ xs, ∃ v, o = some v ∧ lo ≤ v ∧ v ≤ hi) :
    maskedOutside lo hi xs = xs := by
  induction xs with
  | nil => rfl
  | cons x rest ih =>
    obtain ⟨v, rfl, hv1, hv2⟩ := h x (List.mem_cons_self x rest)
    simp only [maskedOutside, List.map_cons, Option.some_bind]
    rw [if_pos ⟨hv1, hv2⟩]
    have := ih (fun o ho => h o (List.mem_cons_of_mem _ ho))
    simp only [maskedOutside] at this
    rw [this]

theorem slicesNot_single_full (n m : ℕ) (h : m ≤ n) :
    slicesNot [(0, n)] 0 m = [] := by
  simp only [slicesNot, slicesNotGo, Nat.lt_irrefl, if_false]
  rw [if_neg (by omega)]

/-! C3 and C7 share two general facts about whole-dip in-band radio: the
radio-copied result and the mean-skip result.  They are proved once and the
claim theorems and concrete counterexamples derive from them. -/

/-- General helper: with whole-dip valid in-band radio altitude, compute_aal
returns the clipped radio altitude, under the side conditions of the land and
non-land paths. -/
theorem inbandRadioEq (mode : AalMode) (alt_std rad : MArr)
    (low_hb high_gnd : ℚ)
    (hlen : rad.length = alt_std.length) (hpos : 0 < rad.length)
    (hv : ∀ o ∈ rad, ∃ v, o = some v ∧ (0.1 : ℚ) ≤ v ∧ v ≤ 100)
    (hmode :
      (mode = AalMode.land ∧
        anyGtIn rad 0 rad.length BOUNCED_LANDING_THRESHOLD = true) ∨
      (mode ≠ AalMode.land ∧
        meanDiffGt alt_std (clip0 rad) 0 rad.length 10000 = false ∧
        (mode = AalMode.over_gnd → low_hb - high_gnd ≤ 100))) :
    computeAal mode alt_std low_hb high_gnd (some rad) =
      Except.ok (clip0 rad) := by
  have hv0 : ∀ o ∈ rad, ∃ v, o = some v ∧ (0 : ℚ) ≤ v := by
    intro o ho
    obtain ⟨v, rfl, h1, _⟩ := hv o ho
    exact ⟨v, rfl, by linarith⟩
  have ha : clip0 rad = rad := clip0_id_of_nonneg rad hv0
  have hb : maskedOutside 0.1 100 rad = rad := maskedOutside_id_of_inband _ _ _ hv
  have hcl : clumpUnmasked rad = [(0, rad.length)] :=
    clump_all_some rad (by intro h0; rw [h0] at hpos; simp at hpos)
      (fun o ho => (hv o ho).imp (fun v hh => hh.1))
  have hcv : ¬ countValid rad = 0 := by
    cases rad with
    | nil => simp at hpos
    | cons x rest =>
      obtain ⟨v, rfl, _, _⟩ := hv x (List.mem_cons_self x rest)
      simp [countValid]
  have hnotog : ¬ (mode = AalMode.over_gnd ∧ low_hb - high_gnd > 100) := by
    rcases hmode with ⟨hm, _⟩ | ⟨hm, _, hle⟩
    · rw [hm]
      rintro ⟨hcon, _⟩
      exact absurd hcon (by simp)
    · rintro ⟨hog, hgt⟩
      have := hle hog
      linarith
  simp only [computeAal, Option.elim_some, Option.getD]
  rw [if_neg hcv, if_neg hnotog, ha, hb, hcl]
  rw [if_neg (by simp)]
  rcases hmode with ⟨hm, hbounce⟩ | ⟨hm, hmean, _⟩
  · subst hm
    rw [if_pos rfl]
    have hfil : List.filter
        (fun y => anyGtIn rad y.1 y.2 BOUNCED_LANDING_THRESHOLD)
        [(0, rad.length)] = [(0, rad.length)] := by
      simp [List.filter, hbounce]
    rw [hfil]
    simp only [lastD, Except.map, List.foldl, procRaltSection]
    rw [slicesNot_single_full rad.length alt_std.length (le_of_eq hlen.symm)]
    simp only [List.foldl]
    have hcopy : copyRange (List.map (fun _ => some 0) alt_std) 0 rad.length rad = rad :=
      copyRange_all _ _ _ (by simp [hlen]) (le_refl _)
    rw [hcopy, copyRange_all rad rad rad.length rfl (le_refl _), ite_self]
  · rw [if_neg hm]
    rw [ha] at hmean
    simp only [Except.map, List.foldl, procRaltSection]
    rw [hmean]
    simp only [Bool.false_eq_true, if_false]
    rw [slicesNot_single_full rad.length alt_std.length (le_of_eq hlen.symm)]
    simp only [List.foldl]
    rw [copyRange_all _ _ _ (by simp [hlen]) (le_refl _)]

/-- General helper: with whole-dip valid in-band radio altitude but a mean
(pressure - radio) difference above 10,000 ft, the non-land path of
compute_aal skips the radio section (`continue`, line 799) and the output
stays at the initialised zeros. -/
theorem inbandMeanSkip (mode : AalMode) (alt_std rad : MArr)
    (low_hb high_gnd : ℚ)
    (hlen : rad.length = alt_std.length) (hpos : 0 < rad.length)
    (hv : ∀ o ∈ rad, ∃ v, o = some v ∧ (0.1 : ℚ) ≤ v ∧ v ≤ 100)
    (hm : mode ≠ AalMode.land)
    (hgap : mode = AalMode.over_gnd → low_hb - high_gnd ≤ 100)
    (hmean : meanDiffGt alt_std (clip0 rad) 0 rad.length 10000 = true) :
    computeAal mode alt_std low_hb high_gnd (some rad) =
      Except.ok (alt_std.map (fun _ => some 0)) := by
  have hv0 : ∀ o ∈ rad, ∃ v, o = some v ∧ (0 : ℚ) ≤ v := by
    intro o ho
    obtain ⟨v, rfl, h1, _⟩ := hv o ho
    exact ⟨v, rfl, by linarith⟩
  have ha : clip0 rad = rad := clip0_id_of_nonneg rad hv0
  have hb : maskedOutside 0.1 100 rad = rad := maskedOutside_id_of_inband _ _ _ hv
  have hcl : clumpUnmasked rad = [(0, rad.length)] :=
    clump_all_some rad (by intro h0; rw [h0] at hpos; simp at hpos)
      (fun o ho => (hv o ho).imp (fun v hh => hh.1))
  have hcv : ¬ countValid rad = 0 := by
    cases rad with
    | nil => simp at hpos
    | cons x rest =>
      obtain ⟨v, rfl, _, _⟩ := hv x (List.mem_cons_self x rest)
      simp [countValid]
  have hnotog : ¬ (mode = AalMode.over_gnd ∧ low_hb - high_gnd > 100) := by
    rintro ⟨hog, hgt⟩
    have := hgap hog
    linarith
  rw [ha] at hmean
  simp only [computeAal, Option.elim_some, Option.getD]
  rw [if_neg hcv, if_neg hnotog, ha, hb, hcl]
  rw [if_neg (by simp)]
  rw [if_neg hm]
  simp only [Except.map, List.foldl, procRaltSection]
  rw [hmean]
  simp

/-- C3 (amended): for every dip whose radio-altitude samples are all valid
and all within [0.1, 100] ft over the dip's entire slice, compute_aal returns
exactly the clipped radio altitude at every index — provided that for a land
dip some sample exceeds the bounced-landing threshold (otherwise the bounce
filter raises IndexError, line 783), and that for an over_gnd or high dip the
mean (pressure - radio) difference does not exceed 10,000 ft (otherwise the
section is skipped and stays zero, line 799) and, for over_gnd, the dip does
not clear the estimated ground by more than 100 ft (otherwise the unclamped
pressure branch returns first, line 766). -/
theorem c3_inband_radio (mode : AalMode) (alt_std rad : MArr)
    (low_hb high_gnd : ℚ)
    (hlen : rad.length = alt_std.length) (hpos : 0 < rad.length)
    (hv : ∀ o ∈ rad, ∃ v, o = some v ∧ (0.1 : ℚ) ≤ v ∧ v ≤ 100)
    (hmode :
      (mode = AalMode.land ∧
        anyGtIn rad 0 rad.length BOUNCED_LANDING_THRESHOLD = true) ∨
      (mode ≠ AalMode.land ∧
        meanDiffGt alt_std (clip0 rad) 0 rad.length 10000 = false ∧
        (mode = AalMode.over_gnd → low_hb - high_gnd ≤ 100))) :
    computeAal mode alt_std low_hb high_gnd (some rad) =
      Except.ok (clip0 rad) :=
  inbandRadioEq mode alt_std rad low_hb high_gnd hlen hpos hv hmode

/-- Witness for C3: a land dip with valid radio altitude 1, 40, 90, 40, 1 ft
(all in [0.1, 100], one sample above the 35 ft bounce threshold) returns the
clipped radio altitude exactly. -/
theorem c3_witness :
    computeAal AalMode.land [some 10, some 40, some 95, some 45, some 8] 8 8
      (some [some 1, some 40, some 90, some 40, some 1]) =
      Except.ok (clip0 [some 1, some 40, some 90, some 40, some 1]) := by
  refine c3_inband_radio AalMode.land _ _ 8 8 (by norm_num) (by norm_num) ?_ ?_
  · intro o ho
    simp only [List.mem_cons, List.not_mem_nil, or_false] at ho
    rcases ho with rfl | rfl | rfl | rfl | rfl
    · exact ⟨1, rfl, by norm_num⟩
    · exact ⟨40, rfl, by norm_num⟩
    · exact ⟨90, rfl, by norm_num⟩
    · exact ⟨40, rfl, by norm_num⟩
    · exact ⟨1, rfl, by norm_num⟩
  · left
    refine ⟨rfl, ?_⟩
    norm_num [anyGtIn, getM, BOUNCED_LANDING_THRESHOLD, List.range_succ]

/-- C3 counterexample: an over_gnd dip whose radio altitude is valid and
in-band (50 ft) at every sample, but whose mean (pressure - radio) difference
exceeds 10,000 ft, is skipped by the sensor-disagreement guard (line 799
`continue`): the output is the initialised zeros, not the clipped radio
altitude, so the claim does not hold for every dip with in-band radio. -/
theorem c3_counterexample :
    computeAal AalMode.over_gnd [some 20000, some 20000, some 20000] 20000 19950
      (some [some 50, some 50, some 50]) =
      Except.ok [some 0, some 0, some 0] ∧
    clip0 [some 50, some 50, some 50] = [some 50, some 50, some 50] ∧
    ([some 0, some 0, some 0] : MArr) ≠ [some 50, some 50, some 50] := by
  refine ⟨?_, by norm_num [clip0], by simp⟩
  rw [inbandMeanSkip AalMode.over_gnd _ _ 20000 19950 (by norm_num) (by norm_num)
    ?_ (by simp) (by intro hyp; norm_num) ?_]
  · norm_num
  · intro o ho
    simp only [List.mem_cons, List.not_mem_nil, or_false] at ho
    rcases ho with rfl | rfl | rfl <;> exact ⟨50, rfl, by norm_num⟩
  · norm_num [meanDiffGt, zipDiff, extract, build, getM, clip0,
      List.filterMap_cons, List.foldl]

/-! C7: counterexample, amended theorem and witness. -/

/-- C7 counterexample: a high dip with valid in-band radio altitude (50 ft)
and a mean (pressure - radio) difference above 10,000 ft does not fall back
to the land-style pressure-altitude shift — the section is skipped by
`continue` (line 799) and the output remains at its initialised zeros, which
differs from the shift_alt_std output for the same dip. -/
theorem c7_counterexample :
    computeAal AalMode.high [some 15000, some 15980, some 16000, some 15990]
      15000 15000 (some [some 50, some 50, some 50, some 50]) =
      Except.ok [some 0, some 0, some 0, some 0] ∧
    shiftAltStd [some 15000, some 15980, some 16000, some 15990] =
      [some 0, some 980, some 1000, some 990] ∧
    ([some 0, some 0, some 0, some 0] : MArr) ≠
      [some 0, some 980, some 1000, some 990] := by
  refine ⟨?_, by norm_num [shiftAltStd, pitEstimate, maMin], by simp⟩
  rw [inbandMeanSkip AalMode.high _ _ 15000 15000 (by norm_num) (by norm_num)
    ?_ (by simp) (by intro hyp; exact absurd hyp (by simp)) ?_]
  · norm_num
  · intro o ho
    simp only [List.mem_cons, List.not_mem_nil, or_false] at ho
    rcases ho with rfl | rfl | rfl | rfl <;> exact ⟨50, rfl, by norm_num⟩
  · norm_num [meanDiffGt, zipDiff, extract, build, getM, clip0,
      List.filterMap_cons, List.foldl]

/-- C7 (amended): for every radio-valid section whose mean
(pressure - radio) difference exceeds 10,000 ft, compute_aal does not fall
back to the land-style pressure-altitude shift: the `continue` at line 799
skips the section entirely, so the section contributes nothing to the
per-section processing loop — folding over the radio sections with the
skipped section present equals folding with it deleted (no radio values are
copied for it and no stitching is initiated from it), its output range being
whatever the remaining sections' processing produces there; in particular,
when the skipped section spans the whole dip, the dip's output remains at
its initialised zeros. -/
theorem c7_mean_skip :
    (∀ (alt_std alt_rad_aal : MArr) (baro : List (ℕ × ℕ)) (acc : MArr)
      (sec : ℕ × ℕ),
      meanDiffGt alt_std alt_rad_aal sec.1 sec.2 10000 = true →
      procRaltSection alt_std alt_rad_aal baro acc sec = acc) ∧
    (∀ (alt_std alt_rad_aal : MArr) (baro : List (ℕ × ℕ)) (init : MArr)
      (pre post : List (ℕ × ℕ)) (sec : ℕ × ℕ),
      meanDiffGt alt_std alt_rad_aal sec.1 sec.2 10000 = true →
      (pre ++ sec :: post).foldl (procRaltSection alt_std alt_rad_aal baro) init =
        (pre ++ post).foldl (procRaltSection alt_std alt_rad_aal baro) init) ∧
    (∀ (mode : AalMode) (alt_std rad : MArr) (low_hb high_gnd : ℚ),
      rad.length = alt_std.length → 0 < rad.length →
      (∀ o ∈ rad, ∃ v, o = some v ∧ (0.1 : ℚ) ≤ v ∧ v ≤ 100) →
      mode ≠ AalMode.land →
      (mode = AalMode.over_gnd → low_hb - high_gnd ≤ 100) →
      meanDiffGt alt_std (clip0 rad) 0 rad.length 10000 = true →
      computeAal mode alt_std low_hb high_gnd (some rad) =
        Except.ok (alt_std.map (fun _ => some 0))) := by
  have hskip : ∀ (alt_std alt_rad_aal : MArr) (baro : List (ℕ × ℕ))
      (acc : MArr) (sec : ℕ × ℕ),
      meanDiffGt alt_std alt_rad_aal sec.1 sec.2 10000 = true →
      procRaltSection alt_std alt_rad_aal baro acc sec = acc := by
    intro alt_std alt_rad_aal baro acc sec h
    unfold procRaltSection
    rw [if_pos h]
  refine ⟨hskip, ?_, ?_⟩
  · intro alt_std alt_rad_aal baro init pre post sec h
    rw [List.foldl_append, List.foldl_append, List.foldl_cons,
      hskip alt_std alt_rad_aal baro _ sec h]
  · intro mode alt_std rad low_hb high_gnd h1 h2 h3 h4 h5 h6
    exact inbandMeanSkip mode alt_std rad low_hb high_gnd h1 h2 h3 h4 h5 h6

/-- Witness for C7: a radio-valid section reading 30-60 ft over terrain near
21,000 ft pressure altitude trips the sensor-disagreement heuristic: the
section's processing step leaves the accumulator untouched, the fold with
the section equals the fold without it, and the whole-dip output is all
zeros. -/
theorem c7_witness :
    procRaltSection [some 21000, some 21050] [some 30, some 60] []
      [some 0, some 0] (0, 2) = [some 0, some 0] ∧
    List.foldl (procRaltSection [some 21000, some 21050] [some 30, some 60] [])
      [some 0, some 0] [(0, 2)] = [some 0, some 0] ∧
    computeAal AalMode.over_gnd [some 21000, some 21050] 21000 20950
      (some [some 30, some 60]) = Except.ok [some 0, some 0] := by
  have hm : meanDiffGt [some 21000, some 21050] [some 30, some 60] 0 2
      10000 = true := by
    norm_num [meanDiffGt, zipDiff, extract, build, getM,
      List.filterMap_cons, List.foldl]
  refine ⟨?_, ?_, ?_⟩
  · exact c7_mean_skip.1 [some 21000, some 21050] [some 30, some 60] []
      [some 0, some 0] (0, 2) hm
  · have h := c7_mean_skip.2.1 [some 21000, some 21050] [some 30, some 60] []
      [some 0, some 0] [] [] (0, 2) hm
    simpa using h
  · rw [c7_mean_skip.2.2 AalMode.over_gnd [some 21000, some 21050]
      [some 30, some 60] 21000 20950 (by norm_num) (by norm_num) ?_ (by simp)
      (by intro hyp; norm_num) ?_]
    · norm_num
    · intro o ho
      simp only [List.mem_cons, List.not_mem_nil, or_false] at ho
      rcases ho with rfl | rfl
      · exact ⟨30, rfl, by norm_num⟩
      · exact ⟨60, rfl, by norm_num⟩
    · norm_num [meanDiffGt, zipDiff, extract, build, getM, clip0,
        List.filterMap_cons, List.foldl]

/-! C5: the high-dip post-pass.  The imperative in-place loop is proved
equivalent to a functional specification `updDip`, and the single-dip branch
is shown to differ from the claim's description. -/

/-- Functional specification of the post-pass result at index `n`:
the first high dip (when others exist) takes its ground from the next dip's
original values; a lone high dip has the +1000 ft offset applied to its
`alt_std` — not to its ground estimate; the last high dip uses the
already-updated previous dip; an interior high dip takes
min(updated previous ground, own alt_std - 1000, next dip's original
ground).  Non-high dips are untouched. -/
def updDip (ds : List Dip) : ℕ → Dip
  | n =>
    let d := ds.getD n dummyDip
    if d.dtype = AalMode.high then
      if h0 : n = 0 then
        if ds.length = 1 then { d with alt_std := d.highest_ground + 1000 }
        else
          let nd := ds.getD 1 dummyDip
          { d with highest_ground := d.alt_std - nd.alt_std + nd.highest_ground }
      else if n = ds.length - 1 then
        let pd := updDip ds (n - 1)
        { d with highest_ground := d.alt_std - pd.alt_std + pd.highest_ground }
      else
        let nd := ds.getD (n + 1) dummyDip
        let pd := updDip ds (n - 1)
        { d with highest_ground := min pd.highest_ground (min (d.alt_std - 1000) nd.highest_ground) }
    else d
termination_by n => n
decreasing_by all_goals omega

theorem length_postStep (ds : List Dip) (n : ℕ) :
    (postStep ds n).length = ds.length := by
  unfold postStep
  by_cases h1 : (ds.getD n dummyDip).dtype = AalMode.high
  · rw [if_pos h1]
    by_cases h2 : n = 0
    · rw [if_pos h2]
      by_cases h3 : ds.length = 1
      · rw [if_pos h3, List.length_set]
      · rw [if_neg h3, List.length_set]
    · rw [if_neg h2]
      by_cases h4 : n = ds.length - 1
      · rw [if_pos h4, List.length_set]
      · rw [if_neg h4, List.length_set]
  · rw [if_neg h1]

theorem getD_set_ne (ds : List Dip) (k j : ℕ) (x : Dip) (h : k ≠ j) :
    (ds.set k x).getD j dummyDip = ds.getD j dummyDip := by
  induction ds generalizing k j with
  | nil => simp
  | cons a rest ih =>
    cases k with
    | zero =>
      cases j with
      | zero => exact absurd rfl h
      | succ i => simp [List.set]
    | succ m =>
      cases j with
      | zero => simp [List.set]
      | succ i => simpa [List.set] using ih m i (by omega)

theorem getD_set_self (ds : List Dip) (k : ℕ) (x : Dip) (h : k < ds.length) :
    (ds.set k x).getD k dummyDip = x := by
  induction ds generalizing k with
  | nil => simp at h
  | cons a rest ih =>
    cases k with
    | zero => simp [List.set]
    | succ m =>
      simp only [List.length_cons] at h
      simpa [List.set] using ih m (by omega)

theorem postStep_getD_ne (cur : List Dip) (k j : ℕ) (h : k ≠ j) :
    (postStep cur k).getD j dummyDip = cur.getD j dummyDip := by
  unfold postStep
  by_cases h1 : (cur.getD k dummyDip).dtype = AalMode.high
  · rw [if_pos h1]
    by_cases h2 : k = 0
    · subst h2
      by_cases h3 : cur.length = 1
      · rw [if_pos rfl, if_pos h3, getD_set_ne _ _ _ _ h]
      · rw [if_pos rfl, if_neg h3, getD_set_ne _ _ _ _ h]
    · rw [if_neg h2]
      by_cases h4 : k = cur.length - 1
      · rw [if_pos h4, getD_set_ne _ _ _ _ h]
      · rw [if_neg h4, getD_set_ne _ _ _ _ h]
  · rw [if_neg h1]

theorem postStep_getD_self (orig cur : List Dip) (k : ℕ)
    (hlen : cur.length = orig.length) (hk : k < orig.length)
    (h3 : ∀ j, j < k → cur.getD j dummyDip = updDip orig j)
    (h4 : ∀ j, k ≤ j → cur.getD j dummyDip = orig.getD j dummyDip) :
    (postStep cur k).getD k dummyDip = updDip orig k := by
  have hd : cur.getD k dummyDip = orig.getD k dummyDip := h4 k (le_refl k)
  rw [updDip]
  unfold postStep
  rw [hd, hlen]
  by_cases h1 : (orig.getD k dummyDip).dtype = AalMode.high
  · rw [if_pos h1, if_pos h1]
    by_cases h2 : k = 0
    · subst h2
      rw [if_pos rfl, dif_pos rfl]
      by_cases hone : orig.length = 1
      · rw [if_pos hone, if_pos hone, getD_set_self _ _ _ (by omega)]
      · rw [if_neg hone, if_neg hone, h4 1 (by omega),
          getD_set_self _ _ _ (by omega)]
    · rw [if_neg h2, dif_neg h2]
      by_cases h5 : k = orig.length - 1
      · rw [if_pos h5, if_pos h5, h3 (k - 1) (by omega),
          getD_set_self _ _ _ (by omega)]
      · rw [if_neg h5, if_neg h5, h3 (k - 1) (by omega), h4 (k + 1) (by omega),
          getD_set_self _ _ _ (by omega)]
  · rw [if_neg h1, if_neg h1, hd]

theorem postPassGo_spec (fuel : ℕ) :
    ∀ (k : ℕ) (orig cur : List Dip),
      cur.length = orig.length →
      fuel + k = orig.length →
      (∀ j, j < k → cur.getD j dummyDip = updDip orig j) →
      (∀ j, k ≤ j → cur.getD j dummyDip = orig.getD j dummyDip) →
      ∀ j, j < orig.length →
        (postPassGo fuel k cur).getD j dummyDip = updDip orig j := by
  induction fuel with
  | zero =>
    intro k orig cur hlen hk h3 h4 j hj
    simp only [postPassGo]
    exact h3 j (by omega)
  | succ m ih =>
    intro k orig cur hlen hk h3 h4 j hj
    simp only [postPassGo]
    apply ih (k + 1) orig (postStep cur k)
    · rw [length_postStep]
      exact hlen
    · omega
    · intro j2 hj2
      rcases Nat.lt_or_ge j2 k with hlt | hge
      · rw [postStep_getD_ne _ _ _ (by omega)]
        exact h3 j2 hlt
      · have : j2 = k := by omega
        subst this
        exact postStep_getD_self orig cur j2 hlen (by omega) h3 h4
    · intro j2 hj2
      rw [postStep_getD_ne _ _ _ (by omega)]
      exact h4 j2 (by omega)
    · exact hj

/-- C5 counterexample: for a lone high dip the post-pass does not replace
the ground estimate — it leaves `highest_ground` unchanged (2000 ft) and
instead applies the +1000 ft offset to the dip's `alt_std` pressure altitude
(line 947 sets `dip['alt_std']`, not `dip['highest_ground']`); the claim's
replacement of the ground estimate by a +1000 ft offset does not happen. -/
theorem c5_counterexample :
    (postPass [⟨AalMode.high, ⟨2, 9, false⟩, 2000, 2000⟩]).map
      (fun d => d.highest_ground) = [2000] ∧
    (postPass [⟨AalMode.high, ⟨2, 9, false⟩, 2000, 2000⟩]).map
      (fun d => d.alt_std) = [3000] ∧
    (2000 : ℚ) ≠ 2000 + 1000 := by
  refine ⟨?_, ?_, by norm_num⟩ <;>
    norm_num [postPass, postPassGo, postStep, List.getD]

/-- C5 (amended): after the post-pass every dip equals the functional
specification `updDip`: the first high dip (when other dips exist) gets
ground := own alt_std - next alt_std + next ground from the next dip's
original values; a lone high dip keeps its ground estimate and instead has
the arbitrary +1000 ft offset applied to its alt_std; the last high dip gets
ground := own alt_std - previous alt_std + previous ground using the
already-updated previous dip; every interior high dip gets
min(updated previous ground, own alt_std - 1000, next dip's original
ground); non-high dips are unchanged. -/
theorem c5_postpass (ds : List Dip) (n : ℕ) (h : n < ds.length) :
    (postPass ds).getD n dummyDip = updDip ds n :=
  postPassGo_spec ds.length 0 ds ds rfl (by omega)
    (by intro j hj; omega) (by intro j hj; rfl) n h

/-- Witness for C5 on a two-dip list: the leading high dip takes its ground
estimate from the following land dip's original values,
5000 - 1200 + 900 = 4700 ft. -/
theorem c5_witness :
    (postPass [⟨AalMode.high, ⟨0, 4, false⟩, 5000, 5000⟩,
               ⟨AalMode.land, ⟨4, 8, true⟩, 1200, 900⟩]).getD 0 dummyDip =
      updDip [⟨AalMode.high, ⟨0, 4, false⟩, 5000, 5000⟩,
              ⟨AalMode.land, ⟨4, 8, true⟩, 1200, 900⟩] 0 ∧
    updDip [⟨AalMode.high, ⟨0, 4, false⟩, 5000, 5000⟩,
            ⟨AalMode.land, ⟨4, 8, true⟩, 1200, 900⟩] 0 =
      ⟨AalMode.high, ⟨0, 4, false⟩, 5000, 4700⟩ := by
  constructor
  · exact c5_postpass _ 0 (by norm_num)
  · rw [updDip]
    norm_num [List.getD]

/-! C2: the peak-where-trough ValueError escapes derive. -/

/-- A cycle finder emitting extrema values 1000, 400, 300 — a fall followed
by another fall where the dip builder expects a rise back above the trough:
the data-quality fault shape of line 938. -/
def cfFaulty : CycleFinder := fun _ _ => some ([0, 2, 4], [1000, 400, 300])

/-- C2 counterexample: with two Flight-Active Intervals and a segmentation of
the first interval that detects a peak where a trough is expected, derive as
a whole returns the ValueError: the error is not confined to the first
interval, the second interval is never processed and no output is produced
for any part of the flight. -/
theorem c2_counterexample :
    deriveAAL cfFaulty none
      [some 0, some 0, some 0, some 0, some 0, some 0, some 0, some 0, some 0, some 0]
      [(some 0, some 5), (some 5, some 10)] =
      Except.error
        "Problem in Altitude AAL where data should dip, but instead has a peak." := by
  have hbd : buildDipsGo (some 0) 6 [0, 2, 4] [1000, 400, 300]
      [some 0, some 0, some 0, some 0, some 0, some 0, some 0, some 0, some 0, some 0]
      none 0 [] =
      Except.error
        "Problem in Altitude AAL where data should dip, but instead has a peak." := by
    rw [buildDipsGo]
    norm_num [List.getD]
  norm_num [deriveAAL, deriveAALGo, processSpeedy, cfFaulty, buildDips,
    Option.getD, hbd, Except.bind]
  intro h1 h2
  exact absurd h1 (by simp)

/-- C2 (amended): the ValueError raised when the dip builder finds a peak
where a trough is expected (line 939) is not caught inside derive: if the
first Flight-Active Interval's dip construction fails, derive for the whole
flight returns that error, the remaining intervals are not processed and no
output is produced at all. -/
theorem c2_error_escapes (cf : CycleFinder) (alt_rad : Option MArr)
    (alt_std : MArr) (sp : Option ℕ × Option ℕ)
    (rest : List (Option ℕ × Option ℕ)) (idxs0 : List ℕ) (vals : List ℚ)
    (e : String)
    (hsp : ¬ (sp.1 = none ∧ sp.2 = none))
    (hcf : cf (extract alt_std (sp.1.getD 0) (sp.2.getD alt_std.length)) 500 =
      some (idxs0, vals))
    (hbd : buildDips sp alt_std.length (idxs0.map (· + sp.1.getD 0)) vals
      alt_std alt_rad = Except.error e) :
    deriveAAL cf alt_rad alt_std (sp :: rest) = Except.error e := by
  unfold deriveAAL
  simp only [deriveAALGo]
  rw [if_neg hsp]
  have hps : processSpeedy cf alt_rad alt_std sp
      (alt_std.map (fun _ => some 0)) = Except.error e := by
    simp only [processSpeedy, hcf, hbd, Except.bind]
  rw [hps]

/-- Witness for C2: applying the propagation theorem to the faulty cycle
finder on a ten-sample flight with a second interval still pending. -/
theorem c2_witness :
    deriveAAL cfFaulty none
      [some 1, some 1, some 1, some 1, some 1, some 1, some 1, some 1, some 1, some 1]
      [(some 0, some 5), (some 5, some 10)] =
      Except.error
        "Problem in Altitude AAL where data should dip, but instead has a peak." := by
  refine c2_error_escapes cfFaulty none _ (some 0, some 5) [(some 5, some 10)]
    [0, 2, 4] [1000, 400, 300] _ (by simp) (by norm_num [cfFaulty]) ?_
  show buildDips (some 0, some 5) 10 [0 + 0, 2 + 0, 4 + 0] [1000, 400, 300] _ none =
    Except.error _
  unfold buildDips
  rw [buildDipsGo]
  norm_num [List.getD]

/-! C8: the dip slices of one interval. -/

/-- The dips' covered ranges chain from `lo` to `hi`: each dip's slice starts
where the previous one ended and the last one ends at `hi` — the "partition
without gaps or overlaps, adjacent dips share a boundary index" invariant. -/
def chainedB : ℕ → ℕ → List Dip → Bool
  | lo, hi, [] => lo == hi
  | lo, hi, d :: ds => (d.dslice.lo == lo) && chainedB d.dslice.hi hi ds

/-- Number of land dips that open the interval (forward slices, created only
by the rising branch). -/
def landOpenCount (ds : List Dip) : ℕ :=
  (ds.filter (fun d => d.dtype == AalMode.land && !d.dslice.rev)).length

/-- Number of land dips that close the interval (reversed slices, created
only by the falling-tail branch). -/
def landCloseCount (ds : List Dip) : ℕ :=
  (ds.filter (fun d => d.dtype == AalMode.land && d.dslice.rev)).length

theorem lastDipD_concat (front : List Dip) (d x : Dip) :
    lastDipD (front ++ [d]) x = d := by
  induction front generalizing x with
  | nil => rfl
  | cons f fr ih => simpa [lastDipD] using ih f

theorem chained_snoc (front : List Dip) (lo hi : ℕ) (d : Dip)
    (h1 : chainedB lo d.dslice.lo front = true) (h2 : d.dslice.hi = hi) :
    chainedB lo hi (front ++ [d]) = true := by
  induction front generalizing lo with
  | nil =>
    simp only [chainedB, beq_iff_eq] at h1
    simp [chainedB, h1, h2]
  | cons f fr ih =>
    simp only [chainedB, Bool.and_eq_true, beq_iff_eq] at h1 ⊢
    exact ⟨h1.1, ih _ h1.2⟩

theorem landOpenCount_append (ds es : List Dip) :
    landOpenCount (ds ++ es) = landOpenCount ds + landOpenCount es := by
  simp [landOpenCount, List.filter_append]

theorem landCloseCount_append (ds es : List Dip) :
    landCloseCount (ds ++ es) = landCloseCount ds + landCloseCount es := by
  simp [landCloseCount, List.filter_append]

/-- C8 counterexample: with radio altitude valid inside a down-and-up section
but the pressure altitude masked at the minimum-radio index, `hg_max` is
masked, no dip is appended for that section (line 909) and a gap remains:
the two land dips cover [0, 2) and [6, 10), leaving [2, 6) in no dip, so the
dips' slices do not partition the Flight-Active Interval. -/
theorem c8_counterexample :
    buildDips (some 0, some 10) 10 [0, 2, 4, 6, 9] [0, 3000, 1000, 4000, 0]
      [some 0, some 1000, some 3000, some 2000, none, some 2000, some 4000,
        some 2000, some 1000, some 0]
      (some [none, none, none, none, some 30, none, none, none, none, none]) =
      Except.ok [⟨AalMode.land, ⟨0, 2, false⟩, 0, 0⟩,
                 ⟨AalMode.land, ⟨6, 10, true⟩, 0, 0⟩] ∧
    chainedB 0 10 [⟨AalMode.land, ⟨0, 2, false⟩, 0, 0⟩,
                   ⟨AalMode.land, ⟨6, 10, true⟩, 0, 0⟩] = false := by
  constructor
  · have h4 : buildDipsGo (some 0) 10 [0, 2, 4, 6, 9] [0, 3000, 1000, 4000, 0]
        [some 0, some 1000, some 3000, some 2000, none, some 2000, some 4000,
          some 2000, some 1000, some 0]
        (some [none, none, none, none, some 30, none, none, none, none, none]) 4
        [⟨AalMode.land, ⟨0, 2, false⟩, 0, 0⟩, ⟨AalMode.land, ⟨6, 10, true⟩, 0, 0⟩] =
        Except.ok [⟨AalMode.land, ⟨0, 2, false⟩, 0, 0⟩,
                   ⟨AalMode.land, ⟨6, 10, true⟩, 0, 0⟩] := by
      rw [buildDipsGo]
      norm_num
    have h3 : buildDipsGo (some 0) 10 [0, 2, 4, 6, 9] [0, 3000, 1000, 4000, 0]
        [some 0, some 1000, some 3000, some 2000, none, some 2000, some 4000,
          some 2000, some 1000, some 0]
        (some [none, none, none, none, some 30, none, none, none, none, none]) 3
        [⟨AalMode.land, ⟨0, 2, false⟩, 0, 0⟩] =
        Except.ok [⟨AalMode.land, ⟨0, 2, false⟩, 0, 0⟩,
                   ⟨AalMode.land, ⟨6, 10, true⟩, 0, 0⟩] := by
      rw [buildDipsGo]
      norm_num [List.getD, h4]
    have h1 : buildDipsGo (some 0) 10 [0, 2, 4, 6, 9] [0, 3000, 1000, 4000, 0]
        [some 0, some 1000, some 3000, some 2000, none, some 2000, some 4000,
          some 2000, some 1000, some 0]
        (some [none, none, none, none, some 30, none, none, none, none, none]) 1
        [⟨AalMode.land, ⟨0, 2, false⟩, 0, 0⟩] =
        Except.ok [⟨AalMode.land, ⟨0, 2, false⟩, 0, 0⟩,
                   ⟨AalMode.land, ⟨6, 10, true⟩, 0, 0⟩] := by
      rw [buildDipsGo]
      norm_num [List.getD, extract, build, getM, countValid, argminM,
        Option.getD, h3]
    unfold buildDips
    rw [buildDipsGo]
    norm_num [List.getD, Option.getD, h1]
  · norm_num [chainedB]

theorem beq_high_land : (AalMode.high == AalMode.land) = false := by decide

theorem beq_land_land : (AalMode.land == AalMode.land) = true := by decide

/-- Helper for C8: from an odd position `n` (a peak, with the accumulated
dips chaining from the interval start to the extremum at `n`), the dip
builder with no radio altitude produces a chained dip list reaching the
interval end, with at most one opening and one closing land dip. -/
theorem c8_go (qs qe : ℕ) (idxs : List ℕ) (vals : List ℚ) (alt_std : MArr)
    (hlen : idxs.length = vals.length)
    (hmono : ∀ a b, a < b → b < idxs.length → idxs.getD a 0 < idxs.getD b 0)
    (halt : ∀ k, k + 1 < vals.length →
      (k % 2 = 0 → vals.getD k 0 < vals.getD (k + 1) 0) ∧
      (k % 2 = 1 → vals.getD (k + 1) 0 < vals.getD k 0))
    (hoddlen : vals.length % 2 = 1) :
    ∀ (fuel n : ℕ) (front : List Dip) (last : Dip),
      vals.length - n ≤ fuel →
      n % 2 = 1 → n + 2 ≤ vals.length →
      chainedB qs last.dslice.lo front = true →
      last.dslice.hi = idxs.getD n 0 →
      landOpenCount (front ++ [last]) = 1 →
      landCloseCount (front ++ [last]) = 0 →
      ∃ ds, buildDipsGo (some qs) qe idxs vals alt_std none n (front ++ [last]) =
          Except.ok ds ∧
        chainedB qs qe ds = true ∧ landOpenCount ds ≤ 1 ∧ landCloseCount ds ≤ 1 := by
  intro fuel
  induction fuel with
  | zero =>
    intro n front last hfuel hodd hn2 hchain hlasthi hopen hclose
    omega
  | succ m ih =>
    intro n front last hfuel hodd hn2 hchain hlasthi hopen hclose
    rw [buildDipsGo, dif_pos (show n + 1 < vals.length by omega)]
    simp only [Option.elim_none, Option.getD]
    have hfall : vals.getD (n + 1) 0 < vals.getD n 0 := (halt n (by omega)).2 hodd
    rw [if_neg (not_lt.mpr (le_of_lt hfall))]
    by_cases htail : vals.length ≤ n + 2
    · rw [if_pos htail]
      have hidx0 : ¬ idxs.getD n 0 = 0 := by
        have h01 : idxs.getD 0 0 < idxs.getD n 0 := hmono 0 n (by omega) (by omega)
        omega
      rw [if_neg hidx0]
      rw [buildDipsGo, dif_neg (show ¬ (n + 1 + 1 < vals.length) by omega)]
      refine ⟨_, rfl, ?_, ?_, ?_⟩
      · exact chained_snoc _ _ _ _
          (chained_snoc front qs (idxs.getD n 0) last hchain hlasthi) rfl
      · rw [landOpenCount_append]
        have hz : landOpenCount
            [⟨AalMode.land, ⟨idxs.getD n 0, qe, true⟩, vals.getD (n + 1) 0,
              vals.getD (n + 1) 0⟩] = 0 := by
          simp [landOpenCount, List.filter, beq_land_land]
        omega
      · rw [landCloseCount_append]
        have hz : landCloseCount
            [⟨AalMode.land, ⟨idxs.getD n 0, qe, true⟩, vals.getD (n + 1) 0,
              vals.getD (n + 1) 0⟩] = 1 := by
          simp [landCloseCount, List.filter, beq_land_land]
        omega
    · rw [if_neg htail]
      have hrise2 : vals.getD (n + 1) 0 < vals.getD (n + 2) 0 :=
        (halt (n + 1) (by omega)).1 (by omega)
      rw [if_pos hrise2]
      rw [if_neg (by simp : ¬ (false = true))]
      by_cases hm : (front ++ [last] : List Dip) ≠ [] ∧
          (lastDipD (front ++ [last]) dummyDip).dtype = AalMode.high
      · rw [if_pos hm]
        rw [lastDipD_concat, List.dropLast_concat]
        have hhigh : last.dtype = AalMode.high := by
          have := hm.2
          rwa [lastDipD_concat] at this
        apply ih (n + 2) front
          ({ last with
              dslice := ⟨last.dslice.lo, idxs.getD (n + 2) 0, last.dslice.rev⟩,
              alt_std := min last.alt_std (vals.getD (n + 1) 0) })
          (by omega) (by omega) (by omega) hchain rfl
        · rw [landOpenCount_append]
          rw [landOpenCount_append] at hopen
          have h1 : landOpenCount [last] = 0 := by
            simp [landOpenCount, List.filter, hhigh, beq_high_land]
          have h2 : landOpenCount
              [{ last with
                  dslice := ⟨last.dslice.lo, idxs.getD (n + 2) 0, last.dslice.rev⟩,
                  alt_std := min last.alt_std (vals.getD (n + 1) 0) }] = 0 := by
            simp [landOpenCount, List.filter, hhigh, beq_high_land]
          omega
        · rw [landCloseCount_append]
          rw [landCloseCount_append] at hclose
          have h1 : landCloseCount [last] = 0 := by
            simp [landCloseCount, List.filter, hhigh, beq_high_land]
          have h2 : landCloseCount
              [{ last with
                  dslice := ⟨last.dslice.lo, idxs.getD (n + 2) 0, last.dslice.rev⟩,
                  alt_std := min last.alt_std (vals.getD (n + 1) 0) }] = 0 := by
            simp [landCloseCount, List.filter, hhigh, beq_high_land]
          omega
      · rw [if_neg hm]
        apply ih (n + 2) (front ++ [last]) _ (by omega) (by omega) (by omega)
          (chained_snoc front qs (idxs.getD n 0) last hchain hlasthi) rfl
        · rw [landOpenCount_append]
          have hz : landOpenCount
              [⟨AalMode.high, ⟨idxs.getD n 0, idxs.getD (n + 2) 0, false⟩,
                vals.getD (n + 1) 0, vals.getD (n + 1) 0⟩] = 0 := by
            simp [landOpenCount, List.filter, beq_high_land]
          omega
        · rw [landCloseCount_append]
          have hz : landCloseCount
              [⟨AalMode.high, ⟨idxs.getD n 0, idxs.getD (n + 2) 0, false⟩,
                vals.getD (n + 1) 0, vals.getD (n + 1) 0⟩] = 0 := by
            simp [landCloseCount, List.filter]
          omega

/-- C8 (amended): when no radio altitude is supplied and the cycle finder's
extrema strictly alternate, starting and ending with troughs (odd count of
at least 3, strictly increasing indices) over an interval that ends at the
data end, the dips' slices partition [quick.start, quick.stop) without gaps
or overlaps — adjacent dips share a boundary index — and at most one land
dip opens the interval and at most one closes it.  With radio data, a
down-and-up section whose hg_max is masked appends no dip and leaves a gap
(the counterexample); and when the interval stops before the data end the
closing dip covers one extra sample beyond the interval. -/
theorem c8_partition (qs : ℕ) (idxs : List ℕ) (vals : List ℚ) (alt_std : MArr)
    (hlen : idxs.length = vals.length)
    (hoddlen : vals.length % 2 = 1)
    (h3 : 3 ≤ vals.length)
    (hmono : ∀ a b, a < b → b < idxs.length → idxs.getD a 0 < idxs.getD b 0)
    (halt : ∀ k, k + 1 < vals.length →
      (k % 2 = 0 → vals.getD k 0 < vals.getD (k + 1) 0) ∧
      (k % 2 = 1 → vals.getD (k + 1) 0 < vals.getD k 0)) :
    ∃ ds, buildDips (some qs, some alt_std.length) alt_std.length idxs vals
        alt_std none = Except.ok ds ∧
      chainedB qs alt_std.length ds = true ∧
      landOpenCount ds ≤ 1 ∧ landCloseCount ds ≤ 1 := by
  unfold buildDips
  simp only [Option.getD]
  rw [min_eq_right (by omega : alt_std.length ≤ alt_std.length + 1)]
  rw [buildDipsGo, dif_pos (show 0 + 1 < vals.length by omega)]
  simp only [Option.elim_none, Option.getD]
  rw [if_pos ((halt 0 (by omega)).1 (by norm_num))]
  apply c8_go qs alt_std.length idxs vals alt_std hlen hmono halt hoddlen
    vals.length (0 + 1) []
    ⟨AalMode.land, ⟨qs, idxs.getD (0 + 1) 0, false⟩, vals.getD 0 0, vals.getD 0 0⟩
    (by omega) (by omega) (by omega) (by simp [chainedB]) rfl
  · simp [landOpenCount, List.filter, beq_land_land]
  · simp [landCloseCount, List.filter, beq_land_land]

/-- Witness for C8: a single climb-and-descend flight — extrema 0, 3000,
1000 ft at indices 0, 5, 9 of a ten-sample interval — yields dips that
partition [0, 10) with one opening and one closing land dip. -/
theorem c8_witness :
    ∃ ds, buildDips (some 0, some 10) 10 [0, 5, 9] [0, 3000, 1000]
        [some 0, some 0, some 0, some 0, some 0, some 0, some 0, some 0,
          some 0, some 0] none = Except.ok ds ∧
      chainedB 0 10 ds = true ∧ landOpenCount ds ≤ 1 ∧ landCloseCount ds ≤ 1 := by
  exact c8_partition 0 [0, 5, 9] [0, 3000, 1000]
    [some 0, some 0, some 0, some 0, some 0, some 0, some 0, some 0, some 0, some 0]
    (by norm_num) (by norm_num) (by norm_num)
    (by
      intro a b hab hb
      simp only [List.length_cons, List.length_nil] at hb
      have hc : (a = 0 ∧ b = 1) ∨ (a = 0 ∧ b = 2) ∨ (a = 1 ∧ b = 2) := by omega
      rcases hc with ⟨rfl, rfl⟩ | ⟨rfl, rfl⟩ | ⟨rfl, rfl⟩ <;> norm_num [List.getD])
    (by
      intro k hk
      simp only [List.length_cons, List.length_nil] at hk
      have hc : k = 0 ∨ k = 1 := by omega
      rcases hc with rfl | rfl
      · exact ⟨fun _ => by norm_num [List.getD], fun h => by simp at h⟩
      · exact ⟨fun h => by simp at h, fun _ => by norm_num [List.getD]⟩)
